import Mathlib

/-!
# GC command evaluation (`pkg/kv/kvserver/batcheval/cmd_gc.go`)

A shallow embedding of the garbage-collection command of the key-value layer:
the declarator `declareKeysGC`, which computes the latch spans of a request,
and the evaluator `GC`, which checks that a request does not both bump the GC
threshold and collect keys, drops the keys outside the range, splits the rest
into local and global keys, hands both groups to `MVCCGarbageCollect` and then
optionally forwards the persisted GC threshold.

The Go function mutates the `storage.ReadWriter` it is given and returns
`(result.Result, error)`.  Here the mutated storage is threaded explicitly:
`GC` returns the storage it leaves behind together with the result and the
error.
-/

namespace batcheval

/-! ## Timestamps -/

/-- Modelled from the spec: `hlc.Timestamp`, the logical-physical timestamp of
the storage layer (package `hlc` is not part of these sources).  A wall-clock
component and a logical counter, compared lexicographically. -/
structure Timestamp where
  WallTime : Int
  Logical : Int
  deriving DecidableEq, Repr

namespace Timestamp

/-- Modelled from the spec: `Timestamp.IsEmpty`, true exactly for the zero
value, which encodes an absent optional threshold. -/
def IsEmpty (t : Timestamp) : Bool :=
  decide (t = { WallTime := 0, Logical := 0 })

/-- Modelled from the spec: `Timestamp.Less`, the strict order on
logical-physical timestamps (wall time first, logical counter second). -/
def Less (t s : Timestamp) : Bool :=
  decide (t.WallTime < s.WallTime) ||
    (decide (t.WallTime = s.WallTime) && decide (t.Logical < s.Logical))

/-- Modelled from the spec: `Timestamp.Forward`, the monotonic join
`forward(other) -> changed` (in `GC`: "we track the maximum timestamp by
forwarding the existing timestamp").  The Go method updates its receiver in
place and reports whether it moved; here the new receiver value is returned
next to the flag.  The receiver moves only when the argument is strictly
larger. -/
def Forward (t s : Timestamp) : Timestamp × Bool :=
  if t.Less s then (s, true) else (t, false)

/-- The pair a timestamp is ordered by. -/
def ordKey (t : Timestamp) : Int ×ₗ Int :=
  toLex (t.WallTime, t.Logical)

/-- Timestamps are linearly ordered, wall time first and logical counter
second; `Less` decides the strict order (`Timestamp.Less_iff`). -/
instance : LinearOrder Timestamp :=
  LinearOrder.lift' ordKey (by
    intro a b h
    cases a
    cases b
    simpa [ordKey, Prod.ext_iff] using h)

end Timestamp

/-! ## Requests and results -/

/-- A `roachpb.Key`: a byte string. -/
abbrev Key := List Nat

/-- A `roachpb.GCRequest_GCKey`: a key and the expiration timestamp at or below
which its versions may be collected. -/
structure GCKey where
  Key : Key
  Timestamp : Timestamp
  deriving DecidableEq, Repr

/-- A `roachpb.GCRequest`, restricted to the fields `GC` reads. -/
structure GCRequest where
  Keys : List GCKey
  Threshold : Timestamp
  deriving DecidableEq, Repr

/-- A `roachpb.Header`, restricted to the batch timestamp. -/
structure Header where
  Timestamp : Timestamp
  deriving DecidableEq, Repr

/-- The testing knobs consulted by `GC`. -/
structure EvalKnobs where
  AllowGCWithNewThresholdAndKeys : Bool
  deriving DecidableEq, Repr

/-- The part of `batcheval.EvalContext` that `GC` consults: the range-bounds
test, the knobs, and the GC threshold held in the replica's in-memory state
(updated after, not together with, the application of a GC request to the
storage). -/
structure EvalContext where
  ContainsKey : Key → Bool
  EvalKnobs : EvalKnobs
  GCThreshold : Timestamp

/-- The method `EvalContext.GetGCThreshold`: the replica's in-memory GC
threshold. -/
def EvalContext.GetGCThreshold (ctx : EvalContext) : Timestamp :=
  ctx.GCThreshold

/-- A `batcheval.CommandArgs` for a GC request. -/
structure CommandArgs where
  EvalCtx : EvalContext
  Header : Header
  Args : GCRequest

/-- A `kvserverpb.ReplicaState`, restricted to the GC threshold. -/
structure ReplicaState where
  GCThreshold : Option Timestamp
  deriving DecidableEq, Repr

/-- A `kvserverpb.ReplicatedEvalResult`, restricted to the state delta. -/
structure ReplicatedEvalResult where
  State : Option ReplicaState
  deriving DecidableEq, Repr

/-- A `result.Result`, restricted to its replicated part. -/
structure Result where
  Replicated : ReplicatedEvalResult
  deriving DecidableEq, Repr

/-- The zero value `result.Result{}`. -/
def Result.empty : Result :=
  { Replicated := { State := none } }

/-- The errors `GC` can return: its own assertion failure, or a fault reported
by one of the storage calls. -/
inductive Error where
  | AssertionFailed (msg : String)
  | StorageFault (code : Nat)
  deriving DecidableEq, Repr

/-- The error built by `errors.AssertionFailedf` in `GC`. -/
def assertionFailure : Error :=
  Error.AssertionFailed
    "GC request can set threshold or it can GC keys, but it is unsafe for it to do both"

/-! ## Storage -/

/-- One stored MVCC version of a key, with its size in bytes. -/
structure Version where
  Key : Key
  Timestamp : Timestamp
  Bytes : Nat
  deriving DecidableEq, Repr

/-- A call received by the storage layer. -/
inductive Call where
  | MVCCGarbageCollect (keys : List GCKey) (timestamp : Timestamp)
  | SetGCThreshold (threshold : Timestamp)
  deriving DecidableEq, Repr

/-- Modelled from the spec: the storage `GC` works on, that is the
`storage.ReadWriter`, the statistics sink `cArgs.Stats` and the range-scoped
persisted GC threshold (the storage engine and the state loader are not part of
these sources).  `GCThreshold` is the persisted copy, which `SetGCThreshold`
writes and `GC` never reads; `Calls` records every storage call in the order
received. -/
structure ReadWriter where
  Versions : List Version
  BytesErased : Nat
  GCThreshold : Timestamp
  Calls : List Call
  deriving DecidableEq, Repr

/-- The collaborators of `GC` that are outside these sources and are taken as
parameters: `keys.IsLocal`, and the storage faults that the erase primitive and
the threshold write may report (`none` when the call succeeds). -/
structure Env where
  IsLocal : Key → Bool
  MVCCGarbageCollectFault : ReadWriter → List GCKey → Timestamp → Option Nat
  SetGCThresholdFault : ReadWriter → Timestamp → Option Nat

/-- Whether a stored version is collected by a list of GC keys: some listed key
names it with an expiration timestamp at or above the version. -/
def collected (keys : List GCKey) (v : Version) : Bool :=
  keys.any (fun k => decide (k.Key = v.Key) && !(k.Timestamp.Less v.Timestamp))

/-- Modelled from the spec: `storage.MVCCGarbageCollect`, the erase primitive
(the storage engine is not part of these sources).  Every call is recorded.
Without keys there is no work and the call succeeds, as in the scenarios of the
specification that have nothing to erase.  Otherwise the call either reports a
storage fault and removes nothing, or removes every version at or below the
expiration timestamp of a listed key and adds the removed bytes to the
accounting. -/
def MVCCGarbageCollect (env : Env) (rw : ReadWriter) (keys : List GCKey)
    (timestamp : Timestamp) : ReadWriter × Option Error :=
  let rw1 := { rw with Calls := rw.Calls ++ [Call.MVCCGarbageCollect keys timestamp] }
  if keys.isEmpty then (rw1, none)
  else
    match env.MVCCGarbageCollectFault rw keys timestamp with
    | some code => (rw1, some (Error.StorageFault code))
    | none =>
      ({ rw1 with
          Versions := rw.Versions.filter (fun v => !(collected keys v))
          BytesErased := rw.BytesErased +
            ((rw.Versions.filter (collected keys)).map Version.Bytes).sum },
        none)

/-- Modelled from the spec: `StateLoader.SetGCThreshold`, which persists a new
threshold (the state loader is not part of these sources).  Every call is
recorded; the call either reports a storage fault and writes nothing, or
stores the value. -/
def SetGCThreshold (env : Env) (rw : ReadWriter) (threshold : Timestamp) :
    ReadWriter × Option Error :=
  let rw1 := { rw with Calls := rw.Calls ++ [Call.SetGCThreshold threshold] }
  match env.SetGCThresholdFault rw threshold with
  | some code => (rw1, some (Error.StorageFault code))
  | none => ({ rw1 with GCThreshold := threshold }, none)

/-! ## The evaluator -/

/-- The loop of `GC` that keeps the keys inside the range and separates local
from global keys, appending each kept key to its slice. -/
def partitionKeys (env : Env) (ctx : EvalContext) (keys : List GCKey) :
    List GCKey × List GCKey :=
  keys.foldl
    (fun (acc : List GCKey × List GCKey) (k : GCKey) =>
      if ctx.ContainsKey k.Key then
        if env.IsLocal k.Key then (acc.1 ++ [k], acc.2) else (acc.1, acc.2 ++ [k])
      else acc)
    ([], [])

/-- The slice `localKeys` that `GC` builds from a command. -/
def localKeys (env : Env) (cArgs : CommandArgs) : List GCKey :=
  (partitionKeys env cArgs.EvalCtx cArgs.Args.Keys).1

/-- The slice `globalKeys` that `GC` builds from a command. -/
def globalKeys (env : Env) (cArgs : CommandArgs) : List GCKey :=
  (partitionKeys env cArgs.EvalCtx cArgs.Args.Keys).2

/-- The loop of `GC` over the key groups: each group is handed to
`MVCCGarbageCollect` with the batch timestamp, and the first error ends the
loop. -/
def collectGroups (env : Env) (timestamp : Timestamp) :
    ReadWriter → List (List GCKey) → ReadWriter × Option Error
  | rw, [] => (rw, none)
  | rw, gcKeys :: rest =>
    match MVCCGarbageCollect env rw gcKeys timestamp with
    | (rw1, some err) => (rw1, some err)
    | (rw1, none) => collectGroups env timestamp rw1 rest

/-- What an evaluation of `GC` leaves behind: the storage after the calls made,
and the returned `(result.Result, error)`. -/
structure Evaluation where
  readWriter : ReadWriter
  res : Result
  err : Option Error
  deriving DecidableEq, Repr

/-- The guard at the top of `GC`: the request carries a new threshold and keys,
and the knob that allows both is off. -/
def rejectsThresholdAndKeys (cArgs : CommandArgs) : Bool :=
  !cArgs.Args.Threshold.IsEmpty && cArgs.Args.Keys.length != 0 &&
    !cArgs.EvalCtx.EvalKnobs.AllowGCWithNewThresholdAndKeys

/-- The evaluator `GC`. -/
def GC (env : Env) (readWriter : ReadWriter) (cArgs : CommandArgs) : Evaluation :=
  let args := cArgs.Args
  let h := cArgs.Header
  if rejectsThresholdAndKeys cArgs then
    { readWriter := readWriter, res := Result.empty, err := some assertionFailure }
  else
    match collectGroups env h.Timestamp readWriter
        [localKeys env cArgs, globalKeys env cArgs] with
    | (rw1, some err) => { readWriter := rw1, res := Result.empty, err := some err }
    | (rw1, none) =>
      if !args.Threshold.IsEmpty then
        let oldThreshold := cArgs.EvalCtx.GetGCThreshold
        let newThreshold := (oldThreshold.Forward args.Threshold).1
        let updated := (oldThreshold.Forward args.Threshold).2
        if updated then
          match SetGCThreshold env rw1 newThreshold with
          | (rw2, some err) => { readWriter := rw2, res := Result.empty, err := some err }
          | (rw2, none) =>
            { readWriter := rw2
              res := { Replicated := { State := some { GCThreshold := some newThreshold } } }
              err := none }
        else { readWriter := rw1, res := Result.empty, err := none }
      else { readWriter := rw1, res := Result.empty, err := none }

/-- The command on a replica whose in-memory GC threshold is the given one. -/
def CommandArgs.withGCThreshold (cArgs : CommandArgs) (threshold : Timestamp) :
    CommandArgs :=
  { cArgs with EvalCtx := { cArgs.EvalCtx with GCThreshold := threshold } }

/-- The command on a replica whose in-memory GC threshold agrees with the
threshold persisted in the given storage, as it does once the persisted value
has been installed in the replica's in-memory state. -/
def inSync (rw : ReadWriter) (cArgs : CommandArgs) : CommandArgs :=
  cArgs.withGCThreshold rw.GCThreshold

/-- The evaluation of a command on a replica whose in-memory GC threshold
agrees with the threshold persisted in the storage it is evaluated on. -/
def GCInSync (env : Env) (readWriter : ReadWriter) (cArgs : CommandArgs) : Evaluation :=
  GC env readWriter (inSync readWriter cArgs)

/-- The command without the requested keys that lie outside the range. -/
def dropOutOfRange (cArgs : CommandArgs) : CommandArgs :=
  { cArgs with
    Args := { cArgs.Args with
      Keys := cArgs.Args.Keys.filter (fun k => cArgs.EvalCtx.ContainsKey k.Key) } }

/-- The storage calls made during an evaluation: those recorded after the ones
already present before it. -/
def newCalls (before after : ReadWriter) : List Call :=
  after.Calls.drop before.Calls.length

/-- The erase calls among a list of storage calls, in order. -/
def eraseCalls (calls : List Call) : List (List GCKey × Timestamp) :=
  calls.filterMap (fun c =>
    match c with
    | Call.MVCCGarbageCollect keys timestamp => some (keys, timestamp)
    | Call.SetGCThreshold _ => none)

/-- The keys handed to the erase primitive over a list of storage calls, call
after call. -/
def handedKeys (calls : List Call) : List GCKey :=
  ((eraseCalls calls).map Prod.fst).flatten

/-- The threshold writes among a list of storage calls, in order. -/
def thresholdWrites (calls : List Call) : List Timestamp :=
  calls.filterMap (fun c =>
    match c with
    | Call.MVCCGarbageCollect _ _ => none
    | Call.SetGCThreshold threshold => some threshold)

/-! ## The latch declarator -/

/-- A `spanset.SpanAccess`. -/
inductive SpanAccess where
  | SpanReadOnly
  | SpanReadWrite
  deriving DecidableEq, Repr

/-- A `roachpb.Span`; `EndKey` is empty for a span on a single key, as in
`roachpb.Span{Key: k}`. -/
structure Span where
  Key : Key
  EndKey : batcheval.Key
  deriving DecidableEq, Repr

/-- Modelled from the spec: one declared span of a `spanset.SpanSet` (package
`spanset` is not part of these sources): the access mode, the key span, and
whether it is non-MVCC (`none`) or MVCC at a timestamp. -/
structure LatchSpan where
  Access : SpanAccess
  Span : Span
  MVCC : Option Timestamp
  deriving DecidableEq, Repr

/-- Modelled from the spec: a `spanset.SpanSet`, as the spans declared so far,
in declaration order. -/
abbrev SpanSet := List LatchSpan

/-- Modelled from the spec: `SpanSet.AddNonMVCC`, which declares a span that
conflicts regardless of timestamp. -/
def SpanSet.AddNonMVCC (s : SpanSet) (access : SpanAccess) (span : Span) : SpanSet :=
  s ++ [{ Access := access, Span := span, MVCC := none }]

/-- Modelled from the spec: `SpanSet.AddMVCC`, which declares a span at a
timestamp. -/
def SpanSet.AddMVCC (s : SpanSet) (access : SpanAccess) (span : Span)
    (timestamp : Timestamp) : SpanSet :=
  s ++ [{ Access := access, Span := span, MVCC := some timestamp }]

/-- The part of `ImmutableRangeState` that `declareKeysGC` reads. -/
structure ImmutableRangeState where
  RangeID : Int
  StartKey : Key
  deriving DecidableEq, Repr

/-- The key constructors of package `keys` used by `declareKeysGC`, which are
outside these sources and are taken as parameters. -/
structure RangeKeys where
  RangeGCThresholdKey : Int → Key
  RangeDescriptorKey : Key → Key

/-- The loop of `declareKeysGC` over the request's keys: a non-MVCC read-write
span for a local key, an MVCC read-write span at the batch timestamp
otherwise. -/
def declareKeySpans (env : Env) (header : Header) (keys : List GCKey)
    (latchSpans : SpanSet) : SpanSet :=
  keys.foldl
    (fun (spans : SpanSet) (key : GCKey) =>
      if env.IsLocal key.Key then
        spans.AddNonMVCC SpanAccess.SpanReadWrite { Key := key.Key, EndKey := [] }
      else
        spans.AddMVCC SpanAccess.SpanReadWrite { Key := key.Key, EndKey := [] }
          header.Timestamp)
    latchSpans

/-- The declarator `declareKeysGC`.  The Go function adds to the latch span set
it is given and ignores the lock span set; here both sets are returned. -/
def declareKeysGC (env : Env) (rk : RangeKeys) (rs : ImmutableRangeState) (header : Header)
    (gcr : GCRequest) (latchSpans lockSpans : SpanSet) : SpanSet × SpanSet :=
  let latchSpans1 := declareKeySpans env header gcr.Keys latchSpans
  let latchSpans2 :=
    if !gcr.Threshold.IsEmpty then
      latchSpans1.AddNonMVCC SpanAccess.SpanReadWrite
        { Key := rk.RangeGCThresholdKey rs.RangeID, EndKey := [] }
    else latchSpans1
  (latchSpans2.AddNonMVCC SpanAccess.SpanReadOnly
      { Key := rk.RangeDescriptorKey rs.StartKey, EndKey := [] },
    lockSpans)

/-- The spans added by a declaration: those after the ones already present. -/
def addedSpans (before after : SpanSet) : SpanSet :=
  after.drop before.length

/-- The span the key loop of `declareKeysGC` declares for one key. -/
def keyLatch (env : Env) (header : Header) (key : GCKey) : LatchSpan :=
  if env.IsLocal key.Key then
    { Access := SpanAccess.SpanReadWrite, Span := { Key := key.Key, EndKey := [] },
      MVCC := none }
  else
    { Access := SpanAccess.SpanReadWrite, Span := { Key := key.Key, EndKey := [] },
      MVCC := some header.Timestamp }

/-- The non-MVCC read-write span on the range's GC threshold key. -/
def thresholdLatch (rk : RangeKeys) (rs : ImmutableRangeState) : LatchSpan :=
  { Access := SpanAccess.SpanReadWrite,
    Span := { Key := rk.RangeGCThresholdKey rs.RangeID, EndKey := [] }, MVCC := none }

/-- The non-MVCC read-only span on the range descriptor key. -/
def descriptorLatch (rk : RangeKeys) (rs : ImmutableRangeState) : LatchSpan :=
  { Access := SpanAccess.SpanReadOnly,
    Span := { Key := rk.RangeDescriptorKey rs.StartKey, EndKey := [] }, MVCC := none }

/-! ## Sample inputs -/

/-- A timestamp with the given wall time. -/
def ts (n : Int) : Timestamp :=
  { WallTime := n, Logical := 0 }

/-- Keys starting with byte 1 are local; nothing faults. -/
def env0 : Env :=
  { IsLocal := fun k => k.head? == some 1
    MVCCGarbageCollectFault := fun _ _ _ => none
    SetGCThresholdFault := fun _ _ => none }

/-- Keys starting with byte 1 are local; every erase call that carries keys
reports fault 7. -/
def env1 : Env :=
  { IsLocal := fun k => k.head? == some 1
    MVCCGarbageCollectFault := fun _ _ _ => some 7
    SetGCThresholdFault := fun _ _ => none }

/-- A range holding the keys whose first byte is below 100, on a replica whose
in-memory GC threshold is 30. -/
def ctx0 (allow : Bool) : EvalContext :=
  { ContainsKey := fun k => decide (k.head?.getD 0 < 100)
    EvalKnobs := { AllowGCWithNewThresholdAndKeys := allow }
    GCThreshold := ts 30 }

/-- An empty storage with the given persisted threshold. -/
def rw0 (threshold : Timestamp) : ReadWriter :=
  { Versions := [], BytesErased := 0, GCThreshold := threshold, Calls := [] }

/-- A storage holding three versions of key `[5]` and one of key `[200]`. -/
def rwVersions : ReadWriter :=
  { Versions :=
      [{ Key := [5], Timestamp := ts 50, Bytes := 10 },
        { Key := [5], Timestamp := ts 100, Bytes := 20 },
        { Key := [5], Timestamp := ts 150, Bytes := 40 },
        { Key := [200], Timestamp := ts 50, Bytes := 80 }]
    BytesErased := 0
    GCThreshold := ts 30
    Calls := [] }

/-- A command at batch timestamp 200 under `ctx0`. -/
def cmd (allow : Bool) (keys : List GCKey) (threshold : Timestamp) : CommandArgs :=
  { EvalCtx := ctx0 allow, Header := { Timestamp := ts 200 },
    Args := { Keys := keys, Threshold := threshold } }

/-- A local key inside the range of `ctx0`. -/
def kLocal : GCKey :=
  { Key := [1, 2], Timestamp := ts 100 }

/-- A global key inside the range of `ctx0`. -/
def kGlobal : GCKey :=
  { Key := [5], Timestamp := ts 100 }

/-- A key outside the range of `ctx0`. -/
def kOutside : GCKey :=
  { Key := [200], Timestamp := ts 100 }

/-- Local keys `[1, 103, id]` and `[1, 100] ++ start` stand for the GC threshold
key and the range descriptor key. -/
def rk0 : RangeKeys :=
  { RangeGCThresholdKey := fun id => [1, 103, id.toNat]
    RangeDescriptorKey := fun start => [1, 100] ++ start }

/-- Range 7, starting at key `[3]`. -/
def rs0 : ImmutableRangeState :=
  { RangeID := 7, StartKey := [3] }

/-- Keys starting with byte 1 are local; a threshold write reports fault 9 when
the persisted threshold is 10. -/
def env3 : Env :=
  { IsLocal := fun k => k.head? == some 1
    MVCCGarbageCollectFault := fun _ _ _ => none
    SetGCThresholdFault := fun rw _ => if rw.GCThreshold = ts 10 then some 9 else none }

/-- Keys starting with byte 1 are local; an erase call reports fault 8 unless
all its keys are local. -/
def env2 : Env :=
  { IsLocal := fun k => k.head? == some 1
    MVCCGarbageCollectFault := fun _ keys _ =>
      if keys.all (fun k => k.Key.head? == some 1) then none else some 8
    SetGCThresholdFault := fun _ _ => none }

end batcheval

/-! # The fetcher states (`pkg/sql/colfetcher/fetcherstate_string.go`) -/

namespace colfetcher

/-- The type `fetcherState`.  Its declaration is outside these sources; the
method treats it as a signed integer (`i < 0`, `int64(i)`), modelled here
without a bound. -/
abbrev fetcherState := Int

/-- The constant `_fetcherState_name`. -/
def _fetcherState_name : String :=
  "stateInvalidstateInitFetchstateResetBatchstateDecodeFirstKVOfRowstateFetchNextKVWithUnfinishedRowstateFinalizeRowstateEmitLastBatchstateFinished"

/-- The table `_fetcherState_index`. -/
def _fetcherState_index : List Nat :=
  [0, 12, 26, 41, 64, 97, 113, 131, 144]

/-- The Go slice expression `s[lo:hi]` on a string of one-byte characters; it
panics (`none`) unless `lo ≤ hi ≤ len(s)`. -/
def slice (s : String) (lo hi : Nat) : Option String :=
  if lo ≤ hi ∧ hi ≤ s.length then some (String.mk ((s.data.drop lo).take (hi - lo)))
  else none

/-- The Go index expression `_fetcherState_index[i]`; it panics (`none`) when
`i` is out of range. -/
def indexAt (i : Int) : Option Nat :=
  if 0 ≤ i then _fetcherState_index[i.toNat]? else none

/-- The call `strconv.FormatInt(int64(i), 10)`: the decimal digits, after a
minus sign for a negative number. -/
def FormatInt (i : Int) : String :=
  toString i

/-- The method `fetcherState.String`; `none` stands for a run-time panic. -/
def fetcherState.String (i : fetcherState) : Option String :=
  if i < 0 ∨ i ≥ (_fetcherState_index.length : Int) - 1 then
    some ("fetcherState(" ++ FormatInt i ++ ")")
  else
    match indexAt i, indexAt (i + 1) with
    | some lo, some hi => slice _fetcherState_name lo hi
    | _, _ => none

end colfetcher

namespace batcheval

/-! ## Timestamp order -/

theorem Timestamp.lt_def (t s : Timestamp) :
    t < s ↔ t.WallTime < s.WallTime ∨ (t.WallTime = s.WallTime ∧ t.Logical < s.Logical) := by
  show toLex (t.WallTime, t.Logical) < toLex (s.WallTime, s.Logical) ↔ _
  rw [Prod.Lex.lt_iff]

theorem Timestamp.Less_iff (t s : Timestamp) : t.Less s = true ↔ t < s := by
  rw [Timestamp.lt_def]
  simp [Timestamp.Less]

theorem Timestamp.Forward_fst (t s : Timestamp) : (t.Forward s).1 = max t s := by
  unfold Timestamp.Forward
  by_cases h : t.Less s = true
  · rw [if_pos h]
    exact (max_eq_right (le_of_lt ((Timestamp.Less_iff t s).1 h))).symm
  · rw [if_neg h]
    rw [Timestamp.Less_iff] at h
    exact (max_eq_left (not_lt.1 h)).symm

theorem Timestamp.Forward_snd (t s : Timestamp) : (t.Forward s).2 = true ↔ t < s := by
  unfold Timestamp.Forward
  by_cases h : t.Less s = true
  · rw [if_pos h]
    simpa using (Timestamp.Less_iff t s).1 h
  · rw [if_neg h]
    rw [Timestamp.Less_iff] at h
    simpa using h

/-! ## Storage calls -/

/-- The erase primitive on a sample: collecting key `[5]` up to timestamp 100
removes its versions at 50 and 100 (30 bytes) and keeps the one at 150 and the
other key. -/
theorem MVCCGarbageCollect_sample :
    MVCCGarbageCollect env0 rwVersions [kGlobal] (ts 200) =
      ({ Versions :=
            [{ Key := [5], Timestamp := ts 150, Bytes := 40 },
              { Key := [200], Timestamp := ts 50, Bytes := 80 }],
          BytesErased := 30,
          GCThreshold := ts 30,
          Calls := [Call.MVCCGarbageCollect [kGlobal] (ts 200)] }, none) := by
  decide

theorem MVCCGarbageCollect_nil (env : Env) (rw : ReadWriter) (t : Timestamp) :
    MVCCGarbageCollect env rw [] t =
      ({ rw with Calls := rw.Calls ++ [Call.MVCCGarbageCollect [] t] }, none) := rfl

theorem MVCCGarbageCollect_Calls (env : Env) (rw : ReadWriter) (ks : List GCKey)
    (t : Timestamp) :
    (MVCCGarbageCollect env rw ks t).1.Calls = rw.Calls ++ [Call.MVCCGarbageCollect ks t] := by
  unfold MVCCGarbageCollect
  split
  · rfl
  · split <;> rfl

theorem MVCCGarbageCollect_GCThreshold (env : Env) (rw : ReadWriter) (ks : List GCKey)
    (t : Timestamp) :
    (MVCCGarbageCollect env rw ks t).1.GCThreshold = rw.GCThreshold := by
  unfold MVCCGarbageCollect
  split
  · rfl
  · split <;> rfl

theorem MVCCGarbageCollect_err (env : Env) (rw : ReadWriter) (ks : List GCKey)
    (t : Timestamp) (e : Error) (h : (MVCCGarbageCollect env rw ks t).2 = some e) :
    ∃ code, e = Error.StorageFault code := by
  unfold MVCCGarbageCollect at h
  split at h
  · cases h
  · split at h
    · rename_i code _
      exact ⟨code, by injection h with h; exact h.symm⟩
    · cases h

theorem SetGCThreshold_Calls (env : Env) (rw : ReadWriter) (t : Timestamp) :
    (SetGCThreshold env rw t).1.Calls = rw.Calls ++ [Call.SetGCThreshold t] := by
  unfold SetGCThreshold
  split <;> rfl

theorem SetGCThreshold_err (env : Env) (rw : ReadWriter) (t : Timestamp) (e : Error)
    (h : (SetGCThreshold env rw t).2 = some e) : ∃ code, e = Error.StorageFault code := by
  unfold SetGCThreshold at h
  split at h
  · rename_i code _
    exact ⟨code, by injection h with h; exact h.symm⟩
  · cases h

theorem SetGCThreshold_GCThreshold (env : Env) (rw : ReadWriter) (t : Timestamp) :
    (SetGCThreshold env rw t).1.GCThreshold = rw.GCThreshold ∨
      ((SetGCThreshold env rw t).2 = none ∧ (SetGCThreshold env rw t).1.GCThreshold = t) := by
  unfold SetGCThreshold
  split
  · exact Or.inl rfl
  · exact Or.inr ⟨rfl, rfl⟩

theorem SetGCThreshold_of_success (env : Env) (rw : ReadWriter) (t : Timestamp)
    (h : (SetGCThreshold env rw t).2 = none) : (SetGCThreshold env rw t).1.GCThreshold = t := by
  unfold SetGCThreshold at h ⊢
  split
  · rename_i code hf
    rw [hf] at h
    cases h
  · rfl

/-! ## The shape of an evaluation -/

/-- The storage after the two erase calls of `GC`, and the error of the first
call that failed. -/
theorem collectGroups_pair (env : Env) (t : Timestamp) (rw : ReadWriter) (l g : List GCKey) :
    collectGroups env t rw [l, g] =
      match MVCCGarbageCollect env rw l t with
      | (rw1, some err) => (rw1, some err)
      | (rw1, none) => MVCCGarbageCollect env rw1 g t := by
  simp only [collectGroups]
  split
  · rfl
  · split <;> simp_all

theorem collectGroups_GCThreshold (env : Env) (t : Timestamp) (groups : List (List GCKey)) :
    ∀ rw : ReadWriter, (collectGroups env t rw groups).1.GCThreshold = rw.GCThreshold := by
  induction groups with
  | nil => intro rw; rfl
  | cons gcKeys rest ih =>
    intro rw
    have h1 := MVCCGarbageCollect_GCThreshold env rw gcKeys t
    simp only [collectGroups]
    split
    · rename_i rw1 err heq
      rw [heq] at h1
      exact h1
    · rename_i rw1 heq
      rw [heq] at h1
      rw [ih rw1]
      exact h1

theorem collectGroups_err (env : Env) (t : Timestamp) (groups : List (List GCKey)) :
    ∀ (rw : ReadWriter) (e : Error), (collectGroups env t rw groups).2 = some e →
      ∃ code, e = Error.StorageFault code := by
  induction groups with
  | nil => intro rw e h; cases h
  | cons gcKeys rest ih =>
    intro rw e h
    simp only [collectGroups] at h
    split at h
    · rename_i rw1 err heq
      have h1 := MVCCGarbageCollect_err env rw gcKeys t err (by rw [heq])
      injection h with h
      rw [← h]
      exact h1
    · rename_i rw1 heq
      exact ih rw1 e h

theorem GC_rejected (env : Env) (rw : ReadWriter) (cArgs : CommandArgs)
    (h : rejectsThresholdAndKeys cArgs = true) :
    GC env rw cArgs = { readWriter := rw, res := Result.empty, err := some assertionFailure } := by
  unfold GC
  simp only [h, if_true]

theorem rejects_iff (cArgs : CommandArgs) :
    rejectsThresholdAndKeys cArgs = true ↔
      (cArgs.Args.Threshold.IsEmpty = false ∧ cArgs.Args.Keys ≠ [] ∧
        cArgs.EvalCtx.EvalKnobs.AllowGCWithNewThresholdAndKeys = false) := by
  unfold rejectsThresholdAndKeys
  cases cArgs.Args.Keys <;> simp


theorem GC_accepted (env : Env) (rw : ReadWriter) (cArgs : CommandArgs)
    (h : rejectsThresholdAndKeys cArgs = false) :
    GC env rw cArgs =
      match collectGroups env cArgs.Header.Timestamp rw
          [localKeys env cArgs, globalKeys env cArgs] with
      | (rw1, some err) => { readWriter := rw1, res := Result.empty, err := some err }
      | (rw1, none) =>
        if !cArgs.Args.Threshold.IsEmpty then
          if (cArgs.EvalCtx.GetGCThreshold.Forward cArgs.Args.Threshold).2 then
            match SetGCThreshold env rw1 (cArgs.EvalCtx.GetGCThreshold.Forward cArgs.Args.Threshold).1 with
            | (rw2, some err) => { readWriter := rw2, res := Result.empty, err := some err }
            | (rw2, none) =>
              ⟨rw2, ⟨⟨some ⟨some (cArgs.EvalCtx.GetGCThreshold.Forward cArgs.Args.Threshold).1⟩⟩⟩, none⟩
          else { readWriter := rw1, res := Result.empty, err := none }
        else { readWriter := rw1, res := Result.empty, err := none } := by
  unfold GC
  simp only [h]
  rfl

/-- The error of an evaluation that passed the guard is a storage fault. -/
theorem GC_accepted_err (env : Env) (rw : ReadWriter) (cArgs : CommandArgs)
    (h : rejectsThresholdAndKeys cArgs = false) (e : Error)
    (he : (GC env rw cArgs).err = some e) : ∃ code, e = Error.StorageFault code := by
  rw [GC_accepted env rw cArgs h] at he
  split at he
  · rename_i rw1 err heq
    have h1 := collectGroups_err env _ _ rw err (by rw [heq])
    injection he with he
    rw [← he]
    exact h1
  · rename_i rw1 heq
    split at he
    · split at he
      · split at he
        · rename_i rw2 err heq2
          have h1 := SetGCThreshold_err env rw1 _ err (by rw [heq2])
          injection he with he
          rw [← he]
          exact h1
        · cases he
      · cases he
    · cases he

/-- The persisted threshold does not move backwards during an evaluation that
reads an in-memory threshold at or above the persisted one. -/
theorem GC_GCThreshold_le (env : Env) (rw : ReadWriter) (cArgs : CommandArgs)
    (hsync : rw.GCThreshold ≤ cArgs.EvalCtx.GetGCThreshold) :
    rw.GCThreshold ≤ (GC env rw cArgs).readWriter.GCThreshold := by
  by_cases h : rejectsThresholdAndKeys cArgs = true
  · rw [GC_rejected env rw cArgs h]
  · have h := Bool.eq_false_iff.2 h
    rw [GC_accepted env rw cArgs h]
    have hc := collectGroups_GCThreshold env cArgs.Header.Timestamp
      [localKeys env cArgs, globalKeys env cArgs] rw
    split
    · rename_i rw1 err heq
      rw [heq] at hc
      exact le_of_eq hc.symm
    · rename_i rw1 heq
      rw [heq] at hc
      simp only at hc
      have hset := SetGCThreshold_GCThreshold env rw1
        (cArgs.EvalCtx.GetGCThreshold.Forward cArgs.Args.Threshold).1
      have hmax : rw.GCThreshold ≤
          (cArgs.EvalCtx.GetGCThreshold.Forward cArgs.Args.Threshold).1 := by
        rw [Timestamp.Forward_fst]
        exact le_trans hsync (le_max_left _ _)
      split
      · split
        · split
          · rename_i rw2 err heq2
            rw [heq2] at hset
            rcases hset with h1 | ⟨h1, _⟩
            · exact le_of_eq (h1.trans hc).symm
            · cases h1
          · rename_i rw2 heq2
            rw [heq2] at hset
            rcases hset with h1 | ⟨_, h1⟩
            · exact le_of_eq (h1.trans hc).symm
            · exact le_of_le_of_eq hmax h1.symm
        · exact le_of_eq hc.symm
      · exact le_of_eq hc.symm

theorem newCalls_append (rw rw1 : ReadWriter) (l : List Call) (h : rw1.Calls = rw.Calls ++ l) :
    newCalls rw rw1 = l := by
  unfold newCalls
  rw [h]
  exact List.drop_left _ _

/-- The storage calls of an evaluation: nothing when the guard rejects the
request; otherwise the erase call on the local keys, then (if that call
succeeded) the erase call on the global keys, then (if that call succeeded too
and the requested threshold is set and newer than the in-memory one) the
threshold write. -/
theorem GC_newCalls (env : Env) (rw : ReadWriter) (cArgs : CommandArgs) :
    newCalls rw (GC env rw cArgs).readWriter =
      if rejectsThresholdAndKeys cArgs = true then []
      else
        Call.MVCCGarbageCollect (localKeys env cArgs)
            cArgs.Header.Timestamp ::
          (if (MVCCGarbageCollect env rw (localKeys env cArgs)
                cArgs.Header.Timestamp).2 = none then
            Call.MVCCGarbageCollect (globalKeys env cArgs)
                cArgs.Header.Timestamp ::
              (if (collectGroups env cArgs.Header.Timestamp rw
                      [localKeys env cArgs, globalKeys env cArgs]).2 = none ∧
                    cArgs.Args.Threshold.IsEmpty = false ∧
                    cArgs.EvalCtx.GetGCThreshold < cArgs.Args.Threshold then
                [Call.SetGCThreshold cArgs.Args.Threshold]
              else [])
          else []) := by
  by_cases h : rejectsThresholdAndKeys cArgs = true
  · rw [GC_rejected env rw cArgs h, if_pos h]
    exact newCalls_append rw rw [] (by simp)
  · rw [if_neg h]
    have h := Bool.eq_false_iff.2 h
    apply newCalls_append
    rw [GC_accepted env rw cArgs h, collectGroups_pair]
    generalize localKeys env cArgs = L
    generalize globalKeys env cArgs = G
    generalize cArgs.Header.Timestamp = t
    have hc1 := MVCCGarbageCollect_Calls env rw L t
    have hg1 := MVCCGarbageCollect_GCThreshold env rw L t
    rcases h1 : MVCCGarbageCollect env rw L t with ⟨rw1, _ | e1⟩
    · rw [h1] at hc1 hg1
      simp only at hc1 hg1
      dsimp only
      have hc2 := MVCCGarbageCollect_Calls env rw1 G t
      have hg2 := MVCCGarbageCollect_GCThreshold env rw1 G t
      rcases h2 : MVCCGarbageCollect env rw1 G t with ⟨rw2, _ | e2⟩
      · rw [h2] at hc2 hg2
        simp only at hc2 hg2
        dsimp only
        simp only [if_true, true_and]
        by_cases hE : cArgs.Args.Threshold.IsEmpty = true
        · simp [hE, hc2, hc1]
        · have hE := Bool.eq_false_iff.2 hE
          by_cases hlt : cArgs.EvalCtx.GetGCThreshold < cArgs.Args.Threshold
          · have hu : (cArgs.EvalCtx.GetGCThreshold.Forward cArgs.Args.Threshold).2 = true := by
              rw [Timestamp.Forward_snd]
              exact hlt
            have hn : (cArgs.EvalCtx.GetGCThreshold.Forward cArgs.Args.Threshold).1 =
                cArgs.Args.Threshold := by
              rw [Timestamp.Forward_fst]
              exact max_eq_right (le_of_lt hlt)
            have hc3 := SetGCThreshold_Calls env rw2 cArgs.Args.Threshold
            simp only [hE, hu, hn, hlt, if_true, Bool.not_false, and_self]
            rcases h3 : SetGCThreshold env rw2 cArgs.Args.Threshold with ⟨rw3, _ | e3⟩
            · rw [h3] at hc3
              simp only at hc3
              simp [hc3, hc2, hc1]
            · rw [h3] at hc3
              simp only at hc3
              simp [hc3, hc2, hc1]
          · have hu : (cArgs.EvalCtx.GetGCThreshold.Forward cArgs.Args.Threshold).2 = false := by
              rw [← Bool.not_eq_true, Timestamp.Forward_snd]
              exact hlt
            simp [hE, hu, hlt, hc2, hc1]
      · rw [h2] at hc2
        simp only at hc2
        dsimp only
        simp [hc2, hc1]
    · rw [h1] at hc1
      simp only at hc1
      dsimp only
      simp [hc1]


/-- The outcome of an evaluation that passed the guard, in terms of the storage
calls: an erase fault ends it; otherwise a set and newer threshold is written,
and anything else leaves the storage as the erase calls left it. -/
theorem GC_accepted_eq (env : Env) (rw : ReadWriter) (cArgs : CommandArgs)
    (h : rejectsThresholdAndKeys cArgs = false) (cg : ReadWriter × Option Error)
    (hcg : cg = collectGroups env cArgs.Header.Timestamp rw
      [localKeys env cArgs, globalKeys env cArgs]) :
    GC env rw cArgs =
      if cg.2 = none then
        if cArgs.Args.Threshold.IsEmpty = false ∧ cArgs.EvalCtx.GetGCThreshold < cArgs.Args.Threshold then
          { readWriter := (SetGCThreshold env cg.1 cArgs.Args.Threshold).1
            res :=
              if (SetGCThreshold env cg.1 cArgs.Args.Threshold).2 = none then
                { Replicated := { State := some { GCThreshold := some cArgs.Args.Threshold } } }
              else Result.empty
            err := (SetGCThreshold env cg.1 cArgs.Args.Threshold).2 }
        else { readWriter := cg.1, res := Result.empty, err := none }
      else { readWriter := cg.1, res := Result.empty, err := cg.2 } := by
  rw [GC_accepted env rw cArgs h, ← hcg]
  have hg : cg.1.GCThreshold = rw.GCThreshold := by
    rw [hcg]
    exact collectGroups_GCThreshold env _ _ rw
  rcases cg with ⟨rw1, _ | e1⟩
  · simp only at hg
    dsimp only
    simp only [if_true]
    by_cases hE : cArgs.Args.Threshold.IsEmpty = true
    · simp [hE]
    · have hE := Bool.eq_false_iff.2 hE
      by_cases hlt : cArgs.EvalCtx.GetGCThreshold < cArgs.Args.Threshold
      · have hu : (cArgs.EvalCtx.GetGCThreshold.Forward cArgs.Args.Threshold).2 = true := by
          rw [Timestamp.Forward_snd]
          exact hlt
        have hn : (cArgs.EvalCtx.GetGCThreshold.Forward cArgs.Args.Threshold).1 =
            cArgs.Args.Threshold := by
          rw [Timestamp.Forward_fst]
          exact max_eq_right (le_of_lt hlt)
        simp only [hE, hu, hn, hlt, if_true, Bool.not_false, and_self]
        rcases h3 : SetGCThreshold env rw1 cArgs.Args.Threshold with ⟨rw3, _ | e3⟩
        · simp
        · simp [Result.empty]
      · have hu : (cArgs.EvalCtx.GetGCThreshold.Forward cArgs.Args.Threshold).2 = false := by
          rw [← Bool.not_eq_true, Timestamp.Forward_snd]
          exact hlt
        simp [hE, hu, hlt]
  · simp


theorem collectGroups_nil_nil (env : Env) (t : Timestamp) (rw : ReadWriter) :
    collectGroups env t rw [[], []] =
      ({ rw with Calls := rw.Calls ++
          [Call.MVCCGarbageCollect [] t, Call.MVCCGarbageCollect [] t] }, none) := by
  simp [collectGroups, MVCCGarbageCollect]

/-! ## Partitioning -/

theorem partitionKeys_foldl (env : Env) (ctx : EvalContext) (keys : List GCKey) :
    ∀ acc : List GCKey × List GCKey,
      keys.foldl
          (fun (acc : List GCKey × List GCKey) (k : GCKey) =>
            if ctx.ContainsKey k.Key then
              if env.IsLocal k.Key then (acc.1 ++ [k], acc.2) else (acc.1, acc.2 ++ [k])
            else acc)
          acc =
        (acc.1 ++ keys.filter (fun k => ctx.ContainsKey k.Key && env.IsLocal k.Key),
          acc.2 ++ keys.filter (fun k => ctx.ContainsKey k.Key && !env.IsLocal k.Key)) := by
  induction keys with
  | nil => intro acc; simp
  | cons k rest ih =>
    intro acc
    rw [List.foldl_cons, ih]
    by_cases hc : ctx.ContainsKey k.Key = true
    · by_cases hl : env.IsLocal k.Key = true
      · simp [hc, hl]
      · simp [hc, hl]
    · simp [hc]

theorem partitionKeys_eq (env : Env) (ctx : EvalContext) (keys : List GCKey) :
    partitionKeys env ctx keys =
      (keys.filter (fun k => ctx.ContainsKey k.Key && env.IsLocal k.Key),
        keys.filter (fun k => ctx.ContainsKey k.Key && !env.IsLocal k.Key)) := by
  unfold partitionKeys
  rw [partitionKeys_foldl]
  simp

/-- The partition on a sample: the key outside the range is dropped, the local
key goes to the first slice and the global keys, in request order, to the
second. -/
theorem partitionKeys_sample :
    partitionKeys env0 (ctx0 false) [kGlobal, kOutside, kLocal, kGlobal] =
      ([kLocal], [kGlobal, kGlobal]) := by
  decide

theorem partitionKeys_out_of_range (env : Env) (ctx : EvalContext) (keys : List GCKey)
    (hout : ∀ k ∈ keys, ctx.ContainsKey k.Key = false) :
    partitionKeys env ctx keys = ([], []) := by
  rw [partitionKeys_eq]
  have h1 : keys.filter (fun k => ctx.ContainsKey k.Key && env.IsLocal k.Key) = [] := by
    rw [List.filter_eq_nil_iff]
    intro k hk
    simp [hout k hk]
  have h2 : keys.filter (fun k => ctx.ContainsKey k.Key && !env.IsLocal k.Key) = [] := by
    rw [List.filter_eq_nil_iff]
    intro k hk
    simp [hout k hk]
  rw [h1, h2]

theorem count_partition (env : Env) (ctx : EvalContext) (keys : List GCKey) (k : GCKey)
    (hk : ctx.ContainsKey k.Key = true) :
    (keys.filter (fun k => ctx.ContainsKey k.Key && env.IsLocal k.Key) ++
        keys.filter (fun k => ctx.ContainsKey k.Key && !env.IsLocal k.Key)).count k =
      keys.count k := by
  induction keys with
  | nil => simp
  | cons a rest ih =>
    rw [List.count_append] at ih ⊢
    by_cases ha : a = k
    · subst ha
      by_cases hl : env.IsLocal a.Key = true
      · simp [List.filter_cons, hk, hl] at ih ⊢
        omega
      · simp [List.filter_cons, hk, hl] at ih ⊢
        omega
    · have hne : (a == k) = false := by simpa using ha
      by_cases hc : ctx.ContainsKey a.Key = true
      · by_cases hl : env.IsLocal a.Key = true
        · simp [List.filter_cons, hc, hl, List.count_cons, hne] at ih ⊢
          omega
        · simp [List.filter_cons, hc, hl, List.count_cons, hne] at ih ⊢
          omega
      · simp [List.filter_cons, hc, List.count_cons, hne] at ih ⊢
        omega


/-- The persisted threshold after a successful evaluation: the requested one
when it is set and above the in-memory threshold, unchanged otherwise. -/
theorem GC_GCThreshold_of_success (env : Env) (rw : ReadWriter) (cArgs : CommandArgs)
    (hs : (GC env rw cArgs).err = none) :
    (GC env rw cArgs).readWriter.GCThreshold =
      if cArgs.Args.Threshold.IsEmpty = false ∧
          cArgs.EvalCtx.GetGCThreshold < cArgs.Args.Threshold then
        cArgs.Args.Threshold
      else rw.GCThreshold := by
  by_cases h : rejectsThresholdAndKeys cArgs = true
  · rw [GC_rejected env rw cArgs h] at hs
    cases hs
  · have h := Bool.eq_false_iff.2 h
    have hg := collectGroups_GCThreshold env cArgs.Header.Timestamp
      [localKeys env cArgs, globalKeys env cArgs] rw
    rw [GC_accepted_eq env rw cArgs h _ rfl] at hs ⊢
    generalize collectGroups env cArgs.Header.Timestamp rw
      [localKeys env cArgs, globalKeys env cArgs] = cg at hs hg ⊢
    by_cases h1 : cg.2 = none
    · simp only [h1, if_true] at hs ⊢
      by_cases hc : cArgs.Args.Threshold.IsEmpty = false ∧
          cArgs.EvalCtx.GetGCThreshold < cArgs.Args.Threshold
      · simp only [hc, and_self, if_true] at hs ⊢
        exact SetGCThreshold_of_success env cg.1 cArgs.Args.Threshold hs
      · simp only [hc, if_false]
        exact hg
    · simp only [h1, if_false] at hs

/-- The persisted threshold after a successful evaluation on a replica in
sync with the storage: unchanged when the request carries no threshold,
otherwise the larger of the persisted and the requested one. -/
theorem GCInSync_GCThreshold_of_success (env : Env) (rw : ReadWriter) (cArgs : CommandArgs)
    (hs : (GCInSync env rw cArgs).err = none) :
    (GCInSync env rw cArgs).readWriter.GCThreshold =
      if cArgs.Args.Threshold.IsEmpty = true then rw.GCThreshold
      else max rw.GCThreshold cArgs.Args.Threshold := by
  unfold GCInSync at hs ⊢
  rw [GC_GCThreshold_of_success env rw _ hs]
  show (if cArgs.Args.Threshold.IsEmpty = false ∧ rw.GCThreshold < cArgs.Args.Threshold then
      cArgs.Args.Threshold else rw.GCThreshold) = _
  by_cases hE : cArgs.Args.Threshold.IsEmpty = true
  · simp [hE]
  · have hE := Bool.eq_false_iff.2 hE
    by_cases hlt : rw.GCThreshold < cArgs.Args.Threshold
    · simp [hE, hlt, max_eq_right (le_of_lt hlt)]
    · simp [hE, hlt, max_eq_left (not_lt.1 hlt)]

/-! ## The mutual-exclusion check -/

/-- C1: a GC command whose threshold is non-empty and whose key list is
non-empty, evaluated with the `AllowGCWithNewThresholdAndKeys` knob off, returns
the assertion failure with an empty result and leaves the storage exactly as it
was: no storage call is made, so the erase primitive is not called and the
persisted GC threshold is not written. -/
theorem GC_threshold_with_keys_fails (env : Env) (rw : ReadWriter) (cArgs : CommandArgs)
    (hT : cArgs.Args.Threshold.IsEmpty = false) (hK : cArgs.Args.Keys ≠ [])
    (hA : cArgs.EvalCtx.EvalKnobs.AllowGCWithNewThresholdAndKeys = false) :
    (GC env rw cArgs).err = some assertionFailure ∧
      (GC env rw cArgs).res = Result.empty ∧
      (GC env rw cArgs).readWriter = rw ∧
      eraseCalls (newCalls rw (GC env rw cArgs).readWriter) = [] ∧
      thresholdWrites (newCalls rw (GC env rw cArgs).readWriter) = [] := by
  have h := (rejects_iff cArgs).2 ⟨hT, hK, hA⟩
  have hn : newCalls rw rw = [] := newCalls_append rw rw [] (by simp)
  rw [GC_rejected env rw cArgs h]
  refine ⟨rfl, rfl, rfl, ?_, ?_⟩
  · show eraseCalls (newCalls rw rw) = []
    rw [hn]
    rfl
  · show thresholdWrites (newCalls rw rw) = []
    rw [hn]
    rfl

/-- Scenario D of the specification, as an instance of C1. -/
theorem GC_threshold_with_keys_fails_witness :
    (GC env0 (rw0 (ts 30)) (cmd false [kGlobal] (ts 50))).err = some assertionFailure ∧
      (GC env0 (rw0 (ts 30)) (cmd false [kGlobal] (ts 50))).res = Result.empty ∧
      (GC env0 (rw0 (ts 30)) (cmd false [kGlobal] (ts 50))).readWriter = rw0 (ts 30) ∧
      eraseCalls (newCalls (rw0 (ts 30))
        (GC env0 (rw0 (ts 30)) (cmd false [kGlobal] (ts 50))).readWriter) = [] ∧
      thresholdWrites (newCalls (rw0 (ts 30))
        (GC env0 (rw0 (ts 30)) (cmd false [kGlobal] (ts 50))).readWriter) = [] :=
  GC_threshold_with_keys_fails env0 (rw0 (ts 30)) (cmd false [kGlobal] (ts 50))
    (by decide) (by decide) (by decide)

/-- C2: `GC` returns the assertion failure exactly when the threshold is
non-empty, the key list is non-empty and the override knob is off.  A command
carrying both with the knob on, or carrying only keys or only a threshold, is
never rejected by the check. -/
theorem GC_assertion_iff (env : Env) (rw : ReadWriter) (cArgs : CommandArgs) :
    (GC env rw cArgs).err = some assertionFailure ↔
      (cArgs.Args.Threshold.IsEmpty = false ∧ cArgs.Args.Keys ≠ [] ∧
        cArgs.EvalCtx.EvalKnobs.AllowGCWithNewThresholdAndKeys = false) := by
  rw [← rejects_iff]
  constructor
  · intro he
    by_contra h
    have h := Bool.eq_false_iff.2 h
    obtain ⟨code, hc⟩ := GC_accepted_err env rw cArgs h assertionFailure he
    unfold assertionFailure at hc
    cases hc
  · intro h
    rw [GC_rejected env rw cArgs h]

/-! ## The persisted threshold -/

/-- C3 as stated fails: `GC` forwards the replica's in-memory threshold, not the
persisted one.  With 50 persisted, 30 in memory and 40 requested it writes 40,
which is below the persisted 50. -/
theorem GC_threshold_regresses_when_stale :
    (cmd false [] (ts 40)).EvalCtx.GetGCThreshold = ts 30 ∧
      (rw0 (ts 50)).GCThreshold = ts 50 ∧
      (GC env0 (rw0 (ts 50)) (cmd false [] (ts 40))).readWriter.GCThreshold = ts 40 ∧
      ¬ (rw0 (ts 50)).GCThreshold ≤
        (GC env0 (rw0 (ts 50)) (cmd false [] (ts 40))).readWriter.GCThreshold := by
  decide

/-- C3, amended: when the in-memory threshold that `GC` reads is not below the
persisted one (when the two copies agree in particular), the persisted GC
threshold never decreases: whatever the keys, the threshold and the knob, and
whether the evaluation succeeds or fails, the persisted threshold after `GC` is
at or above the one before it, and every threshold write that `GC` issues
carries a value strictly above the one persisted before. -/
theorem GC_threshold_monotone (env : Env) (rw : ReadWriter) (cArgs : CommandArgs)
    (hsync : rw.GCThreshold ≤ cArgs.EvalCtx.GetGCThreshold) :
    rw.GCThreshold ≤ (GC env rw cArgs).readWriter.GCThreshold ∧
      ∀ w ∈ thresholdWrites (newCalls rw (GC env rw cArgs).readWriter),
        rw.GCThreshold < w := by
  refine ⟨GC_GCThreshold_le env rw cArgs hsync, ?_⟩
  intro w hw
  rw [GC_newCalls] at hw
  split at hw
  · simp [thresholdWrites] at hw
  · split at hw
    · split at hw
      · rename_i hc
        simp [thresholdWrites] at hw
        rw [hw]
        exact lt_of_le_of_lt hsync hc.2.2
      · simp [thresholdWrites] at hw
    · simp [thresholdWrites] at hw

/-- Scenario B of the specification: the copies agree at 30 and 50 is written. -/
theorem GC_threshold_monotone_witness :
    (rw0 (ts 30)).GCThreshold ≤
        (GC env0 (rw0 (ts 30)) (cmd false [] (ts 50))).readWriter.GCThreshold ∧
      ∀ w ∈ thresholdWrites (newCalls (rw0 (ts 30))
          (GC env0 (rw0 (ts 30)) (cmd false [] (ts 50))).readWriter),
        (rw0 (ts 30)).GCThreshold < w :=
  GC_threshold_monotone env0 (rw0 (ts 30)) (cmd false [] (ts 50)) (by decide)

/-- C4 as stated fails.  On a range whose persisted and in-memory threshold is
30, applying thresholds 10 and 20 (in either order) leaves 30, not
max(10, 20) = 20.  On a replica whose in-memory threshold stays at 0 the last
writer wins: 10 then 20 leaves 20 but 20 then 10 leaves 10.  And when the write
of 20 faults after 10 was applied, 10 stays. -/
theorem GC_two_thresholds_not_max :
    (GC env0 (GC env0 (rw0 (ts 30)) (cmd false [] (ts 10))).readWriter
        (cmd false [] (ts 20))).readWriter.GCThreshold = ts 30 ∧
      (GC env0 (GC env0 (rw0 (ts 30)) (cmd false [] (ts 20))).readWriter
        (cmd false [] (ts 10))).readWriter.GCThreshold = ts 30 ∧
      max (ts 10) (ts 20) = ts 20 ∧ ts 30 ≠ max (ts 10) (ts 20) ∧
      (GC env0 (GC env0 (rw0 (ts 0)) ((cmd false [] (ts 20)).withGCThreshold (ts 0))).readWriter
        ((cmd false [] (ts 10)).withGCThreshold (ts 0))).readWriter.GCThreshold = ts 10 ∧
      (GCInSync env3 (GCInSync env3 (rw0 (ts 0)) (cmd false [] (ts 10))).readWriter
        (cmd false [] (ts 20))).readWriter.GCThreshold = ts 10 := by
  decide

/-- C4, amended: for two GC commands with non-empty thresholds T1 and T2
(threshold-only ones in particular) applied to the same range with persisted
threshold c, each evaluated successfully on a replica whose in-memory threshold
agrees with the persisted one at that time, the resulting persisted threshold
is max(c, max(T1, T2)) in either order; it is max(T1, T2) whenever c is not
above it. -/
theorem GC_two_thresholds_max (env : Env) (rw : ReadWriter) (a1 a2 : CommandArgs)
    (ht1 : a1.Args.Threshold.IsEmpty = false) (ht2 : a2.Args.Threshold.IsEmpty = false)
    (s1 : (GCInSync env rw a1).err = none)
    (s12 : (GCInSync env (GCInSync env rw a1).readWriter a2).err = none)
    (s2 : (GCInSync env rw a2).err = none)
    (s21 : (GCInSync env (GCInSync env rw a2).readWriter a1).err = none) :
    (GCInSync env (GCInSync env rw a1).readWriter a2).readWriter.GCThreshold =
        max rw.GCThreshold (max a1.Args.Threshold a2.Args.Threshold) ∧
      (GCInSync env (GCInSync env rw a2).readWriter a1).readWriter.GCThreshold =
        max rw.GCThreshold (max a1.Args.Threshold a2.Args.Threshold) ∧
      (rw.GCThreshold ≤ max a1.Args.Threshold a2.Args.Threshold →
        (GCInSync env (GCInSync env rw a1).readWriter a2).readWriter.GCThreshold =
            max a1.Args.Threshold a2.Args.Threshold ∧
          (GCInSync env (GCInSync env rw a2).readWriter a1).readWriter.GCThreshold =
            max a1.Args.Threshold a2.Args.Threshold) := by
  have e12 : (GCInSync env (GCInSync env rw a1).readWriter a2).readWriter.GCThreshold =
      max rw.GCThreshold (max a1.Args.Threshold a2.Args.Threshold) := by
    rw [GCInSync_GCThreshold_of_success env _ a2 s12,
      GCInSync_GCThreshold_of_success env rw a1 s1]
    simp [ht1, ht2, max_assoc]
  have e21 : (GCInSync env (GCInSync env rw a2).readWriter a1).readWriter.GCThreshold =
      max rw.GCThreshold (max a1.Args.Threshold a2.Args.Threshold) := by
    rw [GCInSync_GCThreshold_of_success env _ a1 s21,
      GCInSync_GCThreshold_of_success env rw a2 s2]
    simp only [ht1, ht2, Bool.false_eq_true, if_false]
    rw [max_assoc, max_comm a2.Args.Threshold]
  refine ⟨e12, e21, ?_⟩
  intro hle
  rw [e12, e21, max_eq_right hle]
  exact ⟨rfl, rfl⟩

/-- Thresholds 10 and 20 applied in both orders to a range at 5. -/
theorem GC_two_thresholds_max_witness :
    (GCInSync env0 (GCInSync env0 (rw0 (ts 5)) (cmd false [] (ts 10))).readWriter
        (cmd false [] (ts 20))).readWriter.GCThreshold =
        max (ts 5) (max (ts 10) (ts 20)) ∧
      (GCInSync env0 (GCInSync env0 (rw0 (ts 5)) (cmd false [] (ts 20))).readWriter
        (cmd false [] (ts 10))).readWriter.GCThreshold =
        max (ts 5) (max (ts 10) (ts 20)) ∧
      (ts 5 ≤ max (ts 10) (ts 20) →
        (GCInSync env0 (GCInSync env0 (rw0 (ts 5)) (cmd false [] (ts 10))).readWriter
            (cmd false [] (ts 20))).readWriter.GCThreshold = max (ts 10) (ts 20) ∧
          (GCInSync env0 (GCInSync env0 (rw0 (ts 5)) (cmd false [] (ts 20))).readWriter
            (cmd false [] (ts 10))).readWriter.GCThreshold = max (ts 10) (ts 20)) :=
  GC_two_thresholds_max env0 (rw0 (ts 5)) (cmd false [] (ts 10)) (cmd false [] (ts 20))
    (by decide) (by decide) (by decide) (by decide) (by decide) (by decide)

/-- C5 as stated fails.  On a replica whose in-memory threshold stays at 0 the
last writer wins: thresholds 10 then 20 leave 20 persisted, 20 then 10 leave
10.  And on a replica in sync with the storage, when the write of 20 faults
after 10 was applied, 10 then 20 leaves 10 while 20 then 10 leaves 20. -/
theorem GC_thresholds_do_not_commute :
    (GC env0 (GC env0 (rw0 (ts 0)) ((cmd false [] (ts 10)).withGCThreshold (ts 0))).readWriter
        ((cmd false [] (ts 20)).withGCThreshold (ts 0))).readWriter.GCThreshold = ts 20 ∧
      (GC env0 (GC env0 (rw0 (ts 0)) ((cmd false [] (ts 20)).withGCThreshold (ts 0))).readWriter
        ((cmd false [] (ts 10)).withGCThreshold (ts 0))).readWriter.GCThreshold = ts 10 ∧
      (GCInSync env3 (GCInSync env3 (rw0 (ts 0)) (cmd false [] (ts 10))).readWriter
        (cmd false [] (ts 20))).readWriter.GCThreshold = ts 10 ∧
      (GCInSync env3 (GCInSync env3 (rw0 (ts 0)) (cmd false [] (ts 20))).readWriter
        (cmd false [] (ts 10))).readWriter.GCThreshold = ts 20 ∧
      ts 20 ≠ ts 10 := by
  decide

/-- C5, amended: threshold advancements commute when every evaluation succeeds
on a replica whose in-memory threshold agrees with the persisted one at that
time.  For every persisted threshold and every two GC commands with thresholds
T1 and T2 (threshold-only ones in particular), evaluating T1 then T2 then
leaves the same persisted threshold as evaluating T2 then T1. -/
theorem GC_thresholds_commute (env : Env) (rw : ReadWriter) (a1 a2 : CommandArgs)
    (s1 : (GCInSync env rw a1).err = none)
    (s12 : (GCInSync env (GCInSync env rw a1).readWriter a2).err = none)
    (s2 : (GCInSync env rw a2).err = none)
    (s21 : (GCInSync env (GCInSync env rw a2).readWriter a1).err = none) :
    (GCInSync env (GCInSync env rw a1).readWriter a2).readWriter.GCThreshold =
      (GCInSync env (GCInSync env rw a2).readWriter a1).readWriter.GCThreshold := by
  rw [GCInSync_GCThreshold_of_success env _ a2 s12,
    GCInSync_GCThreshold_of_success env rw a1 s1,
    GCInSync_GCThreshold_of_success env _ a1 s21,
    GCInSync_GCThreshold_of_success env rw a2 s2]
  by_cases h1 : a1.Args.Threshold.IsEmpty = true <;>
    by_cases h2 : a2.Args.Threshold.IsEmpty = true <;>
    simp [h1, h2, max_assoc, max_comm a2.Args.Threshold a1.Args.Threshold]

/-- Thresholds 40 and 20 applied in both orders to a range at 30. -/
theorem GC_thresholds_commute_witness :
    (GCInSync env0 (GCInSync env0 (rw0 (ts 30)) (cmd false [] (ts 40))).readWriter
        (cmd false [] (ts 20))).readWriter.GCThreshold =
      (GCInSync env0 (GCInSync env0 (rw0 (ts 30)) (cmd false [] (ts 20))).readWriter
        (cmd false [] (ts 40))).readWriter.GCThreshold :=
  GC_thresholds_commute env0 (rw0 (ts 30)) (cmd false [] (ts 40)) (cmd false [] (ts 20))
    (by decide) (by decide) (by decide) (by decide)

/-- C6: a threshold-only GC command (no keys, a threshold that is set) whose
requested threshold is strictly above the range's current one (the threshold
`GC` reads from the evaluation context), and whose threshold write succeeds,
returns no error, persists exactly the requested threshold with a single write
of that value, and returns a result whose replicated-state delta is present and
carries that value. -/
theorem GC_threshold_only_advances (env : Env) (rw : ReadWriter) (cArgs : CommandArgs)
    (hK : cArgs.Args.Keys = []) (hT : cArgs.Args.Threshold.IsEmpty = false)
    (hlt : cArgs.EvalCtx.GetGCThreshold < cArgs.Args.Threshold)
    (hset : ∀ s : ReadWriter, env.SetGCThresholdFault s cArgs.Args.Threshold = none) :
    (GC env rw cArgs).err = none ∧
      (GC env rw cArgs).readWriter.GCThreshold = cArgs.Args.Threshold ∧
      (GC env rw cArgs).res.Replicated.State =
        some { GCThreshold := some cArgs.Args.Threshold } ∧
      thresholdWrites (newCalls rw (GC env rw cArgs).readWriter) =
        [cArgs.Args.Threshold] := by
  have h : rejectsThresholdAndKeys cArgs = false := by
    simp [rejectsThresholdAndKeys, hK]
  have hpk : partitionKeys env cArgs.EvalCtx cArgs.Args.Keys = ([], []) := by
    rw [hK]
    rfl
  have hp : localKeys env cArgs = [] ∧ globalKeys env cArgs = [] := by
    unfold localKeys globalKeys
    rw [hpk]
    exact ⟨rfl, rfl⟩
  have hcg := collectGroups_nil_nil env cArgs.Header.Timestamp rw
  refine ⟨?_, ?_, ?_, ?_⟩
  · rw [GC_accepted_eq env rw cArgs h _ rfl, hp.1, hp.2, hcg]
    simp [hT, hlt, SetGCThreshold, hset]
  · rw [GC_accepted_eq env rw cArgs h _ rfl, hp.1, hp.2, hcg]
    simp [hT, hlt, SetGCThreshold, hset]
  · rw [GC_accepted_eq env rw cArgs h _ rfl, hp.1, hp.2, hcg]
    simp [hT, hlt, SetGCThreshold, hset]
  · rw [GC_newCalls, hp.1, hp.2, hcg]
    simp [h, hT, hlt, thresholdWrites, MVCCGarbageCollect]

/-- Scenario B of the specification, as an instance of C6. -/
theorem GC_threshold_only_advances_witness :
    (GC env0 (rw0 (ts 30)) (cmd false [] (ts 50))).err = none ∧
      (GC env0 (rw0 (ts 30)) (cmd false [] (ts 50))).readWriter.GCThreshold = ts 50 ∧
      (GC env0 (rw0 (ts 30)) (cmd false [] (ts 50))).res.Replicated.State =
        some { GCThreshold := some (ts 50) } ∧
      thresholdWrites (newCalls (rw0 (ts 30))
        (GC env0 (rw0 (ts 30)) (cmd false [] (ts 50))).readWriter) = [ts 50] :=
  GC_threshold_only_advances env0 (rw0 (ts 30)) (cmd false [] (ts 50))
    rfl (by decide) (by decide) (fun _ => rfl)

/-- C7: a threshold-only GC command whose requested threshold is not newer
than the range's current one, the threshold `GC` reads from the evaluation
context (a set threshold in particular), returns no error, issues no threshold
write, returns the empty result (no replicated-state delta) and leaves the
storage as it was apart from the record of the two erase calls on the empty key
groups. -/
theorem GC_stale_threshold_noop (env : Env) (rw : ReadWriter) (cArgs : CommandArgs)
    (hK : cArgs.Args.Keys = [])
    (hle : cArgs.Args.Threshold ≤ cArgs.EvalCtx.GetGCThreshold) :
    (GC env rw cArgs).err = none ∧
      thresholdWrites (newCalls rw (GC env rw cArgs).readWriter) = [] ∧
      (GC env rw cArgs).res.Replicated.State = none ∧
      (GC env rw cArgs).res = Result.empty ∧
      (GC env rw cArgs).readWriter =
        { rw with Calls := rw.Calls ++
            [Call.MVCCGarbageCollect [] cArgs.Header.Timestamp,
              Call.MVCCGarbageCollect [] cArgs.Header.Timestamp] } := by
  have h : rejectsThresholdAndKeys cArgs = false := by
    simp [rejectsThresholdAndKeys, hK]
  have hpk : partitionKeys env cArgs.EvalCtx cArgs.Args.Keys = ([], []) := by
    rw [hK]
    rfl
  have hp : localKeys env cArgs = [] ∧ globalKeys env cArgs = [] := by
    unfold localKeys globalKeys
    rw [hpk]
    exact ⟨rfl, rfl⟩
  have hcg := collectGroups_nil_nil env cArgs.Header.Timestamp rw
  have hlt : ¬ cArgs.EvalCtx.GetGCThreshold < cArgs.Args.Threshold := not_lt.2 hle
  refine ⟨?_, ?_, ?_, ?_, ?_⟩
  · rw [GC_accepted_eq env rw cArgs h _ rfl, hp.1, hp.2, hcg]
    simp [hlt]
  · rw [GC_newCalls, hp.1, hp.2, hcg]
    simp [h, hlt, thresholdWrites, MVCCGarbageCollect]
  · rw [GC_accepted_eq env rw cArgs h _ rfl, hp.1, hp.2, hcg]
    simp [hlt, Result.empty]
  · rw [GC_accepted_eq env rw cArgs h _ rfl, hp.1, hp.2, hcg]
    simp [hlt]
  · rw [GC_accepted_eq env rw cArgs h _ rfl, hp.1, hp.2, hcg]
    simp [hlt]

/-- Scenario C of the specification, as an instance of C7. -/
theorem GC_stale_threshold_noop_witness :
    (GC env0 (rw0 (ts 30)) (cmd false [] (ts 20))).err = none ∧
      thresholdWrites (newCalls (rw0 (ts 30))
        (GC env0 (rw0 (ts 30)) (cmd false [] (ts 20))).readWriter) = [] ∧
      (GC env0 (rw0 (ts 30)) (cmd false [] (ts 20))).res.Replicated.State = none ∧
      (GC env0 (rw0 (ts 30)) (cmd false [] (ts 20))).res = Result.empty ∧
      (GC env0 (rw0 (ts 30)) (cmd false [] (ts 20))).readWriter =
        { rw0 (ts 30) with Calls := (rw0 (ts 30)).Calls ++
            [Call.MVCCGarbageCollect [] (cmd false [] (ts 20)).Header.Timestamp,
              Call.MVCCGarbageCollect [] (cmd false [] (ts 20)).Header.Timestamp] } :=
  GC_stale_threshold_noop env0 (rw0 (ts 30)) (cmd false [] (ts 20))
    rfl (by decide)


/-! ## Range bounds, partitions and the erase calls -/

theorem SetGCThreshold_Versions (env : Env) (rw : ReadWriter) (t : Timestamp) :
    (SetGCThreshold env rw t).1.Versions = rw.Versions ∧
      (SetGCThreshold env rw t).1.BytesErased = rw.BytesErased := by
  unfold SetGCThreshold
  split
  · exact ⟨rfl, rfl⟩
  · exact ⟨rfl, rfl⟩

/-- C8 as stated fails: for a request whose only key is outside the range the
erase primitive is still invoked, twice, each time with an empty key list; and
with a threshold set and the knob off such a request is rejected with the
assertion failure instead of succeeding. -/
theorem GC_out_of_range_still_calls_erase :
    (∀ k ∈ (cmd false [kOutside] (ts 0)).Args.Keys,
        (cmd false [kOutside] (ts 0)).EvalCtx.ContainsKey k.Key = false) ∧
      eraseCalls (newCalls (rw0 (ts 30))
        (GC env0 (rw0 (ts 30)) (cmd false [kOutside] (ts 0))).readWriter) =
        [([], ts 200), ([], ts 200)] ∧
      (∀ k ∈ (cmd false [kOutside] (ts 50)).Args.Keys,
        (cmd false [kOutside] (ts 50)).EvalCtx.ContainsKey k.Key = false) ∧
      (GC env0 (rw0 (ts 30)) (cmd false [kOutside] (ts 50))).err = some assertionFailure := by
  decide

/-- C8, amended: for a GC command all of whose keys are outside the range, no
key is handed to the erase primitive (every erase call made carries an empty
key list), nothing is erased (the stored versions and the erased-bytes
accounting are unchanged), and the keys cause no error: the command succeeds
when it carries no threshold, and more generally whenever it passes the
mutual-exclusion check and the threshold write does not fault. -/
theorem GC_out_of_range_keys_dropped (env : Env) (rw : ReadWriter) (cArgs : CommandArgs)
    (hout : ∀ k ∈ cArgs.Args.Keys, cArgs.EvalCtx.ContainsKey k.Key = false) :
    (∀ c ∈ eraseCalls (newCalls rw (GC env rw cArgs).readWriter), c.1 = []) ∧
      (GC env rw cArgs).readWriter.Versions = rw.Versions ∧
      (GC env rw cArgs).readWriter.BytesErased = rw.BytesErased ∧
      (cArgs.Args.Threshold.IsEmpty = true → (GC env rw cArgs).err = none) ∧
      (rejectsThresholdAndKeys cArgs = false →
        (∀ s : ReadWriter, env.SetGCThresholdFault s cArgs.Args.Threshold = none) →
        (GC env rw cArgs).err = none) := by
  have hpk := partitionKeys_out_of_range env cArgs.EvalCtx cArgs.Args.Keys hout
  have hp : localKeys env cArgs = [] ∧ globalKeys env cArgs = [] := by
    unfold localKeys globalKeys
    rw [hpk]
    exact ⟨rfl, rfl⟩
  have hcg := collectGroups_nil_nil env cArgs.Header.Timestamp rw
  have hsucc : rejectsThresholdAndKeys cArgs = false →
      (∀ s : ReadWriter, env.SetGCThresholdFault s cArgs.Args.Threshold = none) →
      (GC env rw cArgs).err = none := by
    intro h hset
    rw [GC_accepted_eq env rw cArgs h _ rfl, hp.1, hp.2, hcg]
    simp only [if_true]
    split
    · simp [SetGCThreshold, hset]
    · rfl
  refine ⟨?_, ?_, ?_, ?_, hsucc⟩
  · intro c hc
    rw [GC_newCalls, hp.1, hp.2] at hc
    split at hc
    · simp [eraseCalls] at hc
    · split at hc
      · split at hc
        · simp [eraseCalls] at hc
          rw [hc]
        · simp [eraseCalls] at hc
          rw [hc]
      · simp [eraseCalls] at hc
        rw [hc]
  · by_cases h : rejectsThresholdAndKeys cArgs = true
    · rw [GC_rejected env rw cArgs h]
    · have h := Bool.eq_false_iff.2 h
      rw [GC_accepted_eq env rw cArgs h _ rfl, hp.1, hp.2, hcg]
      simp only [if_true]
      split
      · exact (SetGCThreshold_Versions env _ _).1
      · rfl
  · by_cases h : rejectsThresholdAndKeys cArgs = true
    · rw [GC_rejected env rw cArgs h]
    · have h := Bool.eq_false_iff.2 h
      rw [GC_accepted_eq env rw cArgs h _ rfl, hp.1, hp.2, hcg]
      simp only [if_true]
      split
      · exact (SetGCThreshold_Versions env _ _).2
      · rfl
  · intro hE
    have h : rejectsThresholdAndKeys cArgs = false := by
      simp [rejectsThresholdAndKeys, hE]
    rw [GC_accepted_eq env rw cArgs h _ rfl, hp.1, hp.2, hcg]
    simp [hE]

/-- Scenario E of the specification, as an instance of the amended C8. -/
theorem GC_out_of_range_keys_dropped_witness :
    (∀ c ∈ eraseCalls (newCalls rwVersions
        (GC env0 rwVersions (cmd false [kOutside] (ts 0))).readWriter), c.1 = []) ∧
      (GC env0 rwVersions (cmd false [kOutside] (ts 0))).readWriter.Versions =
        rwVersions.Versions ∧
      (GC env0 rwVersions (cmd false [kOutside] (ts 0))).readWriter.BytesErased =
        rwVersions.BytesErased ∧
      ((cmd false [kOutside] (ts 0)).Args.Threshold.IsEmpty = true →
        (GC env0 rwVersions (cmd false [kOutside] (ts 0))).err = none) ∧
      (rejectsThresholdAndKeys (cmd false [kOutside] (ts 0)) = false →
        (∀ s : ReadWriter,
          env0.SetGCThresholdFault s (cmd false [kOutside] (ts 0)).Args.Threshold = none) →
        (GC env0 rwVersions (cmd false [kOutside] (ts 0))).err = none) :=
  GC_out_of_range_keys_dropped env0 rwVersions (cmd false [kOutside] (ts 0)) (by decide)

theorem localKeys_eq (env : Env) (cArgs : CommandArgs) :
    localKeys env cArgs = cArgs.Args.Keys.filter
      (fun k => cArgs.EvalCtx.ContainsKey k.Key && env.IsLocal k.Key) := by
  unfold localKeys
  rw [partitionKeys_eq]

theorem globalKeys_eq (env : Env) (cArgs : CommandArgs) :
    globalKeys env cArgs = cArgs.Args.Keys.filter
      (fun k => cArgs.EvalCtx.ContainsKey k.Key && !env.IsLocal k.Key) := by
  unfold globalKeys
  rw [partitionKeys_eq]

/-- The erase calls of an evaluation that passed the guard: the local keys
first, then the global keys unless the first call failed. -/
theorem GC_eraseCalls (env : Env) (rw : ReadWriter) (cArgs : CommandArgs)
    (h : rejectsThresholdAndKeys cArgs = false) :
    eraseCalls (newCalls rw (GC env rw cArgs).readWriter) =
      if (MVCCGarbageCollect env rw (localKeys env cArgs) cArgs.Header.Timestamp).2 = none then
        [(localKeys env cArgs, cArgs.Header.Timestamp),
          (globalKeys env cArgs, cArgs.Header.Timestamp)]
      else [(localKeys env cArgs, cArgs.Header.Timestamp)] := by
  rw [GC_newCalls]
  simp only [h, Bool.false_eq_true, if_false]
  split
  · split <;> simp [eraseCalls]
  · simp [eraseCalls]

/-- C9 as stated fails: a command that passes the mutual-exclusion check and
whose erase call on the local keys reports a fault makes that one call only;
the global keys are never handed to the erase primitive. -/
theorem GC_global_erase_skipped_on_fault :
    rejectsThresholdAndKeys (cmd false [kLocal, kGlobal] (ts 0)) = false ∧
      eraseCalls (newCalls (rw0 (ts 0))
        (GC env1 (rw0 (ts 0)) (cmd false [kLocal, kGlobal] (ts 0))).readWriter) =
        [([kLocal], ts 200)] ∧
      globalKeys env1 (cmd false [kLocal, kGlobal] (ts 0)) = [kGlobal] ∧
      (GC env1 (rw0 (ts 0)) (cmd false [kLocal, kGlobal] (ts 0))).err =
        some (Error.StorageFault 7) := by
  decide

/-- C9, amended: for every GC command that passes the mutual-exclusion check,
the erase primitive is invoked on the local keys first and then, unless that
first call fails, once on the global keys; each call carries the command's
batch timestamp, the local call carries only local keys and the global call
only global keys. -/
theorem GC_erase_local_then_global (env : Env) (rw : ReadWriter) (cArgs : CommandArgs)
    (h : rejectsThresholdAndKeys cArgs = false) :
    eraseCalls (newCalls rw (GC env rw cArgs).readWriter) =
        (if (MVCCGarbageCollect env rw (localKeys env cArgs) cArgs.Header.Timestamp).2 = none
        then
          [(localKeys env cArgs, cArgs.Header.Timestamp),
            (globalKeys env cArgs, cArgs.Header.Timestamp)]
        else [(localKeys env cArgs, cArgs.Header.Timestamp)]) ∧
      (∀ k ∈ localKeys env cArgs, env.IsLocal k.Key = true) ∧
      (∀ k ∈ globalKeys env cArgs, env.IsLocal k.Key = false) := by
  refine ⟨GC_eraseCalls env rw cArgs h, ?_, ?_⟩
  · intro k hk
    rw [localKeys_eq, List.mem_filter] at hk
    exact (Bool.and_eq_true _ _ ▸ hk.2).2
  · intro k hk
    rw [globalKeys_eq, List.mem_filter] at hk
    have h2 : (!env.IsLocal k.Key) = true := (Bool.and_eq_true _ _ ▸ hk.2).2
    simpa using h2

/-- A request with a local key, a global key and a key outside the range. -/
theorem GC_erase_local_then_global_witness :
    eraseCalls (newCalls (rw0 (ts 0))
        (GC env0 (rw0 (ts 0)) (cmd false [kGlobal, kOutside, kLocal] (ts 0))).readWriter) =
        (if (MVCCGarbageCollect env0 (rw0 (ts 0))
              (localKeys env0 (cmd false [kGlobal, kOutside, kLocal] (ts 0)))
              (cmd false [kGlobal, kOutside, kLocal] (ts 0)).Header.Timestamp).2 = none
        then
          [(localKeys env0 (cmd false [kGlobal, kOutside, kLocal] (ts 0)),
              (cmd false [kGlobal, kOutside, kLocal] (ts 0)).Header.Timestamp),
            (globalKeys env0 (cmd false [kGlobal, kOutside, kLocal] (ts 0)),
              (cmd false [kGlobal, kOutside, kLocal] (ts 0)).Header.Timestamp)]
        else
          [(localKeys env0 (cmd false [kGlobal, kOutside, kLocal] (ts 0)),
            (cmd false [kGlobal, kOutside, kLocal] (ts 0)).Header.Timestamp)]) ∧
      (∀ k ∈ localKeys env0 (cmd false [kGlobal, kOutside, kLocal] (ts 0)),
        env0.IsLocal k.Key = true) ∧
      (∀ k ∈ globalKeys env0 (cmd false [kGlobal, kOutside, kLocal] (ts 0)),
        env0.IsLocal k.Key = false) :=
  GC_erase_local_then_global env0 (rw0 (ts 0)) (cmd false [kGlobal, kOutside, kLocal] (ts 0))
    (by decide)

theorem partitionKeys_filter (env : Env) (ctx : EvalContext) (keys : List GCKey) :
    partitionKeys env ctx (keys.filter (fun k => ctx.ContainsKey k.Key)) =
      partitionKeys env ctx keys := by
  rw [partitionKeys_eq, partitionKeys_eq, List.filter_filter, List.filter_filter]
  congr 2
  · funext k
    cases ctx.ContainsKey k.Key <;> simp
  · funext k
    cases ctx.ContainsKey k.Key <;> simp

theorem rejects_dropOutOfRange (cArgs : CommandArgs)
    (h : rejectsThresholdAndKeys cArgs = false) :
    rejectsThresholdAndKeys (dropOutOfRange cArgs) = false := by
  by_contra hc
  have hc := (rejects_iff _).1 (Bool.not_eq_false _ ▸ hc)
  have hT : cArgs.Args.Threshold.IsEmpty = false := hc.1
  have hA : cArgs.EvalCtx.EvalKnobs.AllowGCWithNewThresholdAndKeys = false := hc.2.2
  have hK : cArgs.Args.Keys ≠ [] := by
    intro hK
    apply hc.2.1
    show cArgs.Args.Keys.filter (fun k => cArgs.EvalCtx.ContainsKey k.Key) = []
    rw [hK]
    rfl
  have := (rejects_iff cArgs).2 ⟨hT, hK, hA⟩
  rw [h] at this
  cases this

/-- A command that passes the guard evaluates as it does without its keys
outside the range. -/
theorem GC_dropOutOfRange (env : Env) (rw : ReadWriter) (cArgs : CommandArgs)
    (h : rejectsThresholdAndKeys cArgs = false) :
    GC env rw (dropOutOfRange cArgs) = GC env rw cArgs := by
  have hl : localKeys env (dropOutOfRange cArgs) = localKeys env cArgs := by
    unfold localKeys
    exact congrArg Prod.fst (partitionKeys_filter env cArgs.EvalCtx cArgs.Args.Keys)
  have hg : globalKeys env (dropOutOfRange cArgs) = globalKeys env cArgs := by
    unfold globalKeys
    exact congrArg Prod.snd (partitionKeys_filter env cArgs.EvalCtx cArgs.Args.Keys)
  rw [GC_accepted env rw cArgs h, GC_accepted env rw _ (rejects_dropOutOfRange cArgs h),
    hl, hg]
  rfl

/-- C10 as stated fails: a requested key inside the range is not handed to the
erase primitive when the command is rejected by the mutual-exclusion check or
when the erase call on the local keys faults, and a command with a key outside
the range can return an error. -/
theorem GC_in_range_key_not_handed :
    (cmd false [kGlobal] (ts 50)).EvalCtx.ContainsKey kGlobal.Key = true ∧
      eraseCalls (newCalls (rw0 (ts 30))
        (GC env0 (rw0 (ts 30)) (cmd false [kGlobal] (ts 50))).readWriter) = [] ∧
      (cmd false [kOutside] (ts 50)).EvalCtx.ContainsKey kOutside.Key = false ∧
      (GC env0 (rw0 (ts 30)) (cmd false [kOutside] (ts 50))).err = some assertionFailure ∧
      rejectsThresholdAndKeys (cmd false [kLocal, kGlobal] (ts 0)) = false ∧
      handedKeys (newCalls (rw0 (ts 30))
        (GC env1 (rw0 (ts 30)) (cmd false [kLocal, kGlobal] (ts 0))).readWriter) = [kLocal] := by
  decide

/-- C10, amended: the local slice built by `GC` is the request's keys filtered
to those inside the range and local, the global slice is the request's keys
filtered to those inside the range and not local, each in request order with
the keys and their expiration timestamps unchanged.  Hence every key in a slice
is a requested key inside the range, every requested key inside the range
occurs in the slices exactly as often as in the request, keys outside the range
occur in neither and do not change the slices, every erase call `GC` makes
carries one of the two slices, and every key handed to the erase primitive is a
requested key inside the range.  When the command passes the mutual-exclusion
check and the erase call on the local keys succeeds, the keys handed over are
exactly the two slices, so every requested key inside the range is handed over
exactly as often as it occurs.  A command that passes the check evaluates
exactly as it does without its keys outside the range, and any error it returns
is a storage fault. -/
theorem GC_partition (env : Env) (rw : ReadWriter) (cArgs : CommandArgs) :
    localKeys env cArgs = cArgs.Args.Keys.filter
        (fun k => cArgs.EvalCtx.ContainsKey k.Key && env.IsLocal k.Key) ∧
      globalKeys env cArgs = cArgs.Args.Keys.filter
        (fun k => cArgs.EvalCtx.ContainsKey k.Key && !env.IsLocal k.Key) ∧
      (∀ k ∈ localKeys env cArgs ++ globalKeys env cArgs,
        k ∈ cArgs.Args.Keys ∧ cArgs.EvalCtx.ContainsKey k.Key = true) ∧
      (∀ k : GCKey, cArgs.EvalCtx.ContainsKey k.Key = true →
        (localKeys env cArgs ++ globalKeys env cArgs).count k = cArgs.Args.Keys.count k) ∧
      (∀ k : GCKey, cArgs.EvalCtx.ContainsKey k.Key = false →
        k ∉ localKeys env cArgs ++ globalKeys env cArgs) ∧
      partitionKeys env cArgs.EvalCtx
          (cArgs.Args.Keys.filter (fun k => cArgs.EvalCtx.ContainsKey k.Key)) =
        partitionKeys env cArgs.EvalCtx cArgs.Args.Keys ∧
      (∀ c ∈ eraseCalls (newCalls rw (GC env rw cArgs).readWriter),
        (c.1 = localKeys env cArgs ∨ c.1 = globalKeys env cArgs) ∧
          c.2 = cArgs.Header.Timestamp) ∧
      (∀ k ∈ handedKeys (newCalls rw (GC env rw cArgs).readWriter),
        k ∈ cArgs.Args.Keys ∧ cArgs.EvalCtx.ContainsKey k.Key = true) ∧
      (rejectsThresholdAndKeys cArgs = false →
        (MVCCGarbageCollect env rw (localKeys env cArgs) cArgs.Header.Timestamp).2 = none →
        handedKeys (newCalls rw (GC env rw cArgs).readWriter) =
            localKeys env cArgs ++ globalKeys env cArgs ∧
          ∀ k : GCKey, cArgs.EvalCtx.ContainsKey k.Key = true →
            (handedKeys (newCalls rw (GC env rw cArgs).readWriter)).count k =
              cArgs.Args.Keys.count k) ∧
      (rejectsThresholdAndKeys cArgs = false →
        GC env rw (dropOutOfRange cArgs) = GC env rw cArgs) ∧
      (rejectsThresholdAndKeys cArgs = false →
        ∀ e : Error, (GC env rw cArgs).err = some e → ∃ code, e = Error.StorageFault code) := by
  have hmem : ∀ k ∈ localKeys env cArgs ++ globalKeys env cArgs,
      k ∈ cArgs.Args.Keys ∧ cArgs.EvalCtx.ContainsKey k.Key = true := by
    intro k hk
    rw [localKeys_eq, globalKeys_eq, List.mem_append, List.mem_filter, List.mem_filter] at hk
    rcases hk with ⟨h1, h2⟩ | ⟨h1, h2⟩
    · exact ⟨h1, (Bool.and_eq_true _ _ ▸ h2).1⟩
    · exact ⟨h1, (Bool.and_eq_true _ _ ▸ h2).1⟩
  have hcount : ∀ k : GCKey, cArgs.EvalCtx.ContainsKey k.Key = true →
      (localKeys env cArgs ++ globalKeys env cArgs).count k = cArgs.Args.Keys.count k := by
    intro k hk
    rw [localKeys_eq, globalKeys_eq]
    exact count_partition env cArgs.EvalCtx cArgs.Args.Keys k hk
  have hcalls : ∀ c ∈ eraseCalls (newCalls rw (GC env rw cArgs).readWriter),
      (c.1 = localKeys env cArgs ∨ c.1 = globalKeys env cArgs) ∧
        c.2 = cArgs.Header.Timestamp := by
    intro c hc
    by_cases h : rejectsThresholdAndKeys cArgs = true
    · rw [GC_rejected env rw cArgs h] at hc
      have hn : newCalls rw rw = [] := newCalls_append rw rw [] (by simp)
      simp only [hn] at hc
      cases hc
    · have h := Bool.eq_false_iff.2 h
      rw [GC_eraseCalls env rw cArgs h] at hc
      split at hc
      · simp at hc
        rcases hc with rfl | rfl
        · exact ⟨Or.inl rfl, rfl⟩
        · exact ⟨Or.inr rfl, rfl⟩
      · simp at hc
        subst hc
        exact ⟨Or.inl rfl, rfl⟩
  have hhanded : rejectsThresholdAndKeys cArgs = false →
      (MVCCGarbageCollect env rw (localKeys env cArgs) cArgs.Header.Timestamp).2 = none →
      handedKeys (newCalls rw (GC env rw cArgs).readWriter) =
        localKeys env cArgs ++ globalKeys env cArgs := by
    intro h hl
    unfold handedKeys
    rw [GC_eraseCalls env rw cArgs h, if_pos hl]
    simp
  refine ⟨localKeys_eq env cArgs, globalKeys_eq env cArgs, hmem, hcount, ?_,
    partitionKeys_filter env cArgs.EvalCtx cArgs.Args.Keys, hcalls, ?_, ?_,
    GC_dropOutOfRange env rw cArgs, GC_accepted_err env rw cArgs⟩
  · intro k hk hmemk
    have := (hmem k hmemk).2
    rw [hk] at this
    cases this
  · intro k hk
    unfold handedKeys at hk
    rw [List.mem_flatten] at hk
    obtain ⟨l, hl, hkl⟩ := hk
    rw [List.mem_map] at hl
    obtain ⟨c, hc, rfl⟩ := hl
    apply hmem
    rw [List.mem_append]
    rcases (hcalls c hc).1 with h1 | h1
    · exact Or.inl (h1 ▸ hkl)
    · exact Or.inr (h1 ▸ hkl)
  · intro h hl
    refine ⟨hhanded h hl, ?_⟩
    intro k hk
    rw [hhanded h hl]
    exact hcount k hk

/-- A request with two occurrences of a global key, a local key and a key
outside the range, on a storage that holds versions: both occurrences reach the
erase primitive, the outside key does not, and the command succeeds. -/
theorem GC_partition_witness :
    (handedKeys (newCalls rwVersions
          (GC env0 rwVersions (cmd false [kGlobal, kOutside, kLocal, kGlobal] (ts 0))).readWriter) =
        localKeys env0 (cmd false [kGlobal, kOutside, kLocal, kGlobal] (ts 0)) ++
          globalKeys env0 (cmd false [kGlobal, kOutside, kLocal, kGlobal] (ts 0)) ∧
      ∀ k : GCKey,
        (cmd false [kGlobal, kOutside, kLocal, kGlobal] (ts 0)).EvalCtx.ContainsKey k.Key = true →
        (handedKeys (newCalls rwVersions
          (GC env0 rwVersions
            (cmd false [kGlobal, kOutside, kLocal, kGlobal] (ts 0))).readWriter)).count k =
          (cmd false [kGlobal, kOutside, kLocal, kGlobal] (ts 0)).Args.Keys.count k) ∧
      GC env0 rwVersions (dropOutOfRange (cmd false [kGlobal, kOutside, kLocal, kGlobal] (ts 0))) =
        GC env0 rwVersions (cmd false [kGlobal, kOutside, kLocal, kGlobal] (ts 0)) :=
  ⟨(GC_partition env0 rwVersions
      (cmd false [kGlobal, kOutside, kLocal, kGlobal] (ts 0))).2.2.2.2.2.2.2.2.1
        (by decide) (by decide),
    (GC_partition env0 rwVersions
      (cmd false [kGlobal, kOutside, kLocal, kGlobal] (ts 0))).2.2.2.2.2.2.2.2.2.1
        (by decide)⟩

/-! ## The latch declarator -/

theorem declareKeySpans_eq (env : Env) (header : Header) (keys : List GCKey) :
    ∀ latchSpans : SpanSet,
      declareKeySpans env header keys latchSpans =
        latchSpans ++ keys.map (keyLatch env header) := by
  induction keys with
  | nil => intro latchSpans; simp [declareKeySpans]
  | cons k rest ih =>
    intro latchSpans
    unfold declareKeySpans at ih ⊢
    rw [List.foldl_cons, ih]
    by_cases hl : env.IsLocal k.Key = true
    · simp [hl, keyLatch, SpanSet.AddNonMVCC]
    · simp [hl, keyLatch, SpanSet.AddMVCC]

/-- The latch spans after a declaration: the spans given, then one span per
requested key, then the threshold span if a threshold is requested, then the
range descriptor span. -/
theorem declareKeysGC_eq (env : Env) (rk : RangeKeys) (rs : ImmutableRangeState)
    (header : Header) (gcr : GCRequest) (latchSpans lockSpans : SpanSet) :
    (declareKeysGC env rk rs header gcr latchSpans lockSpans).1 =
      latchSpans ++
        (gcr.Keys.map (keyLatch env header) ++
          (if gcr.Threshold.IsEmpty = true then [] else [thresholdLatch rk rs]) ++
          [descriptorLatch rk rs]) := by
  unfold declareKeysGC
  simp only [declareKeySpans_eq]
  by_cases hE : gcr.Threshold.IsEmpty = true
  · simp [hE, SpanSet.AddNonMVCC, descriptorLatch]
  · simp [hE, SpanSet.AddNonMVCC, descriptorLatch, thresholdLatch]

theorem addedSpans_declareKeysGC (env : Env) (rk : RangeKeys) (rs : ImmutableRangeState)
    (header : Header) (gcr : GCRequest) (latchSpans lockSpans : SpanSet) :
    addedSpans latchSpans (declareKeysGC env rk rs header gcr latchSpans lockSpans).1 =
      gcr.Keys.map (keyLatch env header) ++
        (if gcr.Threshold.IsEmpty = true then [] else [thresholdLatch rk rs]) ++
        [descriptorLatch rk rs] := by
  unfold addedSpans
  rw [declareKeysGC_eq]
  exact List.drop_left _ _

/-- The declarator on a sample: a local key, a global key and a threshold. -/
theorem declareKeysGC_sample :
    declareKeysGC env0 rk0 rs0 { Timestamp := ts 200 }
        { Keys := [kLocal, kGlobal], Threshold := ts 50 } [] [] =
      ([{ Access := SpanAccess.SpanReadWrite, Span := { Key := [1, 2], EndKey := [] },
            MVCC := none },
          { Access := SpanAccess.SpanReadWrite, Span := { Key := [5], EndKey := [] },
            MVCC := some (ts 200) },
          { Access := SpanAccess.SpanReadWrite, Span := { Key := [1, 103, 7], EndKey := [] },
            MVCC := none },
          { Access := SpanAccess.SpanReadOnly, Span := { Key := [1, 100, 3], EndKey := [] },
            MVCC := none }],
        []) := by
  decide

/-- The declarator on a sample without a threshold: the key span and the range
descriptor span only, after the span already present; the lock spans are
untouched. -/
theorem declareKeysGC_sample_no_threshold :
    declareKeysGC env0 rk0 rs0 { Timestamp := ts 200 }
        { Keys := [kGlobal], Threshold := ts 0 } [descriptorLatch rk0 rs0]
        [thresholdLatch rk0 rs0] =
      ([{ Access := SpanAccess.SpanReadOnly, Span := { Key := [1, 100, 3], EndKey := [] },
            MVCC := none },
          { Access := SpanAccess.SpanReadWrite, Span := { Key := [5], EndKey := [] },
            MVCC := some (ts 200) },
          { Access := SpanAccess.SpanReadOnly, Span := { Key := [1, 100, 3], EndKey := [] },
            MVCC := none }],
        [thresholdLatch rk0 rs0]) := by
  decide

/-- C11: the latch set declared by `declareKeysGC` contains the non-MVCC
read-write span on the range's GC threshold key when the command's threshold
is non-empty; when the threshold is empty the threshold rule adds no span: the
spans added are exactly the spans of the requested keys followed by the range
descriptor span, so a span on the threshold key can only come from a requested
key or from the descriptor rule. -/
theorem declareKeysGC_threshold_span (env : Env) (rk : RangeKeys) (rs : ImmutableRangeState)
    (header : Header) (gcr : GCRequest) (latchSpans lockSpans : SpanSet) :
    (gcr.Threshold.IsEmpty = false →
        ({ Access := SpanAccess.SpanReadWrite,
            Span := { Key := rk.RangeGCThresholdKey rs.RangeID, EndKey := [] },
            MVCC := none } : LatchSpan) ∈
          addedSpans latchSpans
            (declareKeysGC env rk rs header gcr latchSpans lockSpans).1) ∧
      (gcr.Threshold.IsEmpty = true →
        addedSpans latchSpans (declareKeysGC env rk rs header gcr latchSpans lockSpans).1 =
            gcr.Keys.map (keyLatch env header) ++ [descriptorLatch rk rs] ∧
          ((∀ k ∈ gcr.Keys, k.Key ≠ rk.RangeGCThresholdKey rs.RangeID) →
            rk.RangeDescriptorKey rs.StartKey ≠ rk.RangeGCThresholdKey rs.RangeID →
            ∀ l ∈ addedSpans latchSpans
                (declareKeysGC env rk rs header gcr latchSpans lockSpans).1,
              l.Span.Key ≠ rk.RangeGCThresholdKey rs.RangeID)) := by
  constructor
  · intro hE
    rw [addedSpans_declareKeysGC]
    simp [hE, thresholdLatch]
  · intro hE
    have heq : addedSpans latchSpans
        (declareKeysGC env rk rs header gcr latchSpans lockSpans).1 =
        gcr.Keys.map (keyLatch env header) ++ [descriptorLatch rk rs] := by
      rw [addedSpans_declareKeysGC]
      simp [hE]
    refine ⟨heq, ?_⟩
    intro hk hd l hl
    rw [heq, List.mem_append] at hl
    rcases hl with hl | hl
    · rw [List.mem_map] at hl
      obtain ⟨k, hkm, rfl⟩ := hl
      have := hk k hkm
      unfold keyLatch
      split <;> exact this
    · rw [List.mem_singleton] at hl
      rw [hl]
      exact hd

/-- C12: for every key in the command's key list `declareKeysGC` declares a
read-write span on exactly that key (no end key): non-MVCC when the key is
local, MVCC at the batch timestamp otherwise; and the first spans it adds are
these, one per key, in request order. -/
theorem declareKeysGC_key_spans (env : Env) (rk : RangeKeys) (rs : ImmutableRangeState)
    (header : Header) (gcr : GCRequest) (latchSpans lockSpans : SpanSet) :
    (∀ k ∈ gcr.Keys,
        (env.IsLocal k.Key = true →
          ({ Access := SpanAccess.SpanReadWrite, Span := { Key := k.Key, EndKey := [] },
              MVCC := none } : LatchSpan) ∈
            addedSpans latchSpans
              (declareKeysGC env rk rs header gcr latchSpans lockSpans).1) ∧
        (env.IsLocal k.Key = false →
          ({ Access := SpanAccess.SpanReadWrite, Span := { Key := k.Key, EndKey := [] },
              MVCC := some header.Timestamp } : LatchSpan) ∈
            addedSpans latchSpans
              (declareKeysGC env rk rs header gcr latchSpans lockSpans).1)) ∧
      (addedSpans latchSpans
          (declareKeysGC env rk rs header gcr latchSpans lockSpans).1).take gcr.Keys.length =
        gcr.Keys.map (fun k =>
          if env.IsLocal k.Key = true then
            { Access := SpanAccess.SpanReadWrite, Span := { Key := k.Key, EndKey := [] },
              MVCC := none }
          else
            { Access := SpanAccess.SpanReadWrite, Span := { Key := k.Key, EndKey := [] },
              MVCC := some header.Timestamp }) := by
  have hmem : ∀ k ∈ gcr.Keys, keyLatch env header k ∈
      addedSpans latchSpans (declareKeysGC env rk rs header gcr latchSpans lockSpans).1 := by
    intro k hk
    rw [addedSpans_declareKeysGC]
    simp only [List.mem_append, List.mem_map]
    exact Or.inl (Or.inl ⟨k, hk, rfl⟩)
  refine ⟨?_, ?_⟩
  · intro k hk
    have h := hmem k hk
    constructor
    · intro hl
      simpa [keyLatch, hl] using h
    · intro hl
      simpa [keyLatch, hl] using h
  · rw [addedSpans_declareKeysGC, List.append_assoc, List.take_left']
    · rfl
    · simp

/-- C13: for every command, whatever its keys and threshold, the latch set
declared by `declareKeysGC` contains the non-MVCC read-only span on the range
descriptor key of the range's start key; it is the last span added. -/
theorem declareKeysGC_descriptor_span (env : Env) (rk : RangeKeys)
    (rs : ImmutableRangeState) (header : Header) (gcr : GCRequest)
    (latchSpans lockSpans : SpanSet) :
    ({ Access := SpanAccess.SpanReadOnly,
        Span := { Key := rk.RangeDescriptorKey rs.StartKey, EndKey := [] },
        MVCC := none } : LatchSpan) ∈
        addedSpans latchSpans (declareKeysGC env rk rs header gcr latchSpans lockSpans).1 ∧
      (declareKeysGC env rk rs header gcr latchSpans lockSpans).1.getLast? =
        some { Access := SpanAccess.SpanReadOnly,
               Span := { Key := rk.RangeDescriptorKey rs.StartKey, EndKey := [] },
               MVCC := none } := by
  constructor
  · rw [addedSpans_declareKeysGC]
    simp [descriptorLatch]
  · rw [declareKeysGC_eq, ← List.append_assoc, List.getLast?_append]
    simp [descriptorLatch]


/-- C19: `declareKeysGC` declares nothing beyond its three rules.  For a command
with n keys it adds n + 1 spans when the threshold is empty and n + 2 when it is
not: one span per key occurrence, then the threshold span if any, then the
range descriptor span.  The spans given are kept in front, and the lock span
set is returned as given. -/
theorem declareKeysGC_span_count (env : Env) (rk : RangeKeys) (rs : ImmutableRangeState)
    (header : Header) (gcr : GCRequest) (latchSpans lockSpans : SpanSet) :
    (addedSpans latchSpans
        (declareKeysGC env rk rs header gcr latchSpans lockSpans).1).length =
        gcr.Keys.length + (if gcr.Threshold.IsEmpty = true then 1 else 2) ∧
      addedSpans latchSpans (declareKeysGC env rk rs header gcr latchSpans lockSpans).1 =
        gcr.Keys.map (keyLatch env header) ++
          (if gcr.Threshold.IsEmpty = true then [] else [thresholdLatch rk rs]) ++
          [descriptorLatch rk rs] ∧
      (declareKeysGC env rk rs header gcr latchSpans lockSpans).1 =
        latchSpans ++
          addedSpans latchSpans (declareKeysGC env rk rs header gcr latchSpans lockSpans).1 ∧
      (declareKeysGC env rk rs header gcr latchSpans lockSpans).2 = lockSpans := by
  refine ⟨?_, addedSpans_declareKeysGC env rk rs header gcr latchSpans lockSpans, ?_, rfl⟩
  · rw [addedSpans_declareKeysGC]
    by_cases hE : gcr.Threshold.IsEmpty = true
    · simp [hE]
    · simp [hE]
  · rw [addedSpans_declareKeysGC, declareKeysGC_eq]

/-! ## Failure, retry and frame of an evaluation -/

/-- An evaluation that has no newer threshold to write leaves the persisted
threshold as it was, issues no threshold write and returns the empty result. -/
theorem GC_no_threshold_write (env : Env) (rw : ReadWriter) (cArgs : CommandArgs)
    (hno : ¬ (cArgs.Args.Threshold.IsEmpty = false ∧ cArgs.EvalCtx.GetGCThreshold < cArgs.Args.Threshold)) :
    (GC env rw cArgs).readWriter.GCThreshold = rw.GCThreshold ∧
      thresholdWrites (newCalls rw (GC env rw cArgs).readWriter) = [] ∧
      (GC env rw cArgs).res = Result.empty := by
  by_cases h : rejectsThresholdAndKeys cArgs = true
  · have hn : newCalls rw rw = [] := newCalls_append rw rw [] (by simp)
    rw [GC_rejected env rw cArgs h]
    refine ⟨rfl, ?_, rfl⟩
    show thresholdWrites (newCalls rw rw) = []
    rw [hn]
    rfl
  · have h := Bool.eq_false_iff.2 h
    have hg := collectGroups_GCThreshold env cArgs.Header.Timestamp
      [localKeys env cArgs, globalKeys env cArgs] rw
    refine ⟨?_, ?_, ?_⟩
    · rw [GC_accepted_eq env rw cArgs h _ rfl]
      simp only [hno, if_false]
      split <;> exact hg
    · rw [GC_newCalls]
      simp only [h, Bool.false_eq_true, if_false]
      have hno2 : ¬ ((collectGroups env cArgs.Header.Timestamp rw
          [localKeys env cArgs, globalKeys env cArgs]).2 = none ∧
          cArgs.Args.Threshold.IsEmpty = false ∧
          cArgs.EvalCtx.GetGCThreshold < cArgs.Args.Threshold) := fun hc => hno hc.2
      simp only [hno2, if_false]
      split <;> simp [thresholdWrites]
    · rw [GC_accepted_eq env rw cArgs h _ rfl]
      simp only [hno, if_false]
      split <;> rfl

/-- C14: when a command passes the mutual-exclusion check and an erase call
fails, on the local keys or (after a successful local call) on the global keys,
`GC` aborts: it returns that error with the empty result (no replicated-state
delta), the failed call is the last storage call it makes, and the persisted
threshold is neither written nor changed. -/
theorem GC_erase_failure_aborts (env : Env) (rw : ReadWriter) (cArgs : CommandArgs)
    (e : Error) (h : rejectsThresholdAndKeys cArgs = false)
    (hf : (MVCCGarbageCollect env rw (localKeys env cArgs) cArgs.Header.Timestamp).2 = some e ∨
      ((MVCCGarbageCollect env rw (localKeys env cArgs) cArgs.Header.Timestamp).2 = none ∧
        (MVCCGarbageCollect env
          (MVCCGarbageCollect env rw (localKeys env cArgs) cArgs.Header.Timestamp).1
          (globalKeys env cArgs) cArgs.Header.Timestamp).2 = some e)) :
    (GC env rw cArgs).err = some e ∧
      (GC env rw cArgs).res = Result.empty ∧
      (GC env rw cArgs).res.Replicated.State = none ∧
      newCalls rw (GC env rw cArgs).readWriter =
        (if (MVCCGarbageCollect env rw (localKeys env cArgs) cArgs.Header.Timestamp).2 = none
        then
          [Call.MVCCGarbageCollect (localKeys env cArgs) cArgs.Header.Timestamp,
            Call.MVCCGarbageCollect (globalKeys env cArgs) cArgs.Header.Timestamp]
        else [Call.MVCCGarbageCollect (localKeys env cArgs) cArgs.Header.Timestamp]) ∧
      thresholdWrites (newCalls rw (GC env rw cArgs).readWriter) = [] ∧
      (GC env rw cArgs).readWriter.GCThreshold = rw.GCThreshold := by
  have hcg : (collectGroups env cArgs.Header.Timestamp rw
      [localKeys env cArgs, globalKeys env cArgs]).2 = some e := by
    rw [collectGroups_pair]
    rcases hf with h1 | ⟨h1, h2⟩
    · rcases hm : MVCCGarbageCollect env rw (localKeys env cArgs) cArgs.Header.Timestamp
        with ⟨rw1, _ | e1⟩
      · rw [hm] at h1
        cases h1
      · rw [hm] at h1
        exact h1
    · rcases hm : MVCCGarbageCollect env rw (localKeys env cArgs) cArgs.Header.Timestamp
        with ⟨rw1, _ | e1⟩
      · rw [hm] at h2
        exact h2
      · rw [hm] at h1
        cases h1
  have hne : ¬ (collectGroups env cArgs.Header.Timestamp rw
      [localKeys env cArgs, globalKeys env cArgs]).2 = none := by
    rw [hcg]
    exact fun hc => by cases hc
  have hg := collectGroups_GCThreshold env cArgs.Header.Timestamp
    [localKeys env cArgs, globalKeys env cArgs] rw
  have hcalls : newCalls rw (GC env rw cArgs).readWriter =
      (if (MVCCGarbageCollect env rw (localKeys env cArgs) cArgs.Header.Timestamp).2 = none
      then
        [Call.MVCCGarbageCollect (localKeys env cArgs) cArgs.Header.Timestamp,
          Call.MVCCGarbageCollect (globalKeys env cArgs) cArgs.Header.Timestamp]
      else [Call.MVCCGarbageCollect (localKeys env cArgs) cArgs.Header.Timestamp]) := by
    rw [GC_newCalls]
    simp only [h, Bool.false_eq_true, if_false]
    split
    · simp [hcg]
    · rfl
  refine ⟨?_, ?_, ?_, hcalls, ?_, ?_⟩
  · rw [GC_accepted_eq env rw cArgs h _ rfl]
    simp only [hne, if_false]
    exact hcg
  · rw [GC_accepted_eq env rw cArgs h _ rfl]
    simp only [hne, if_false]
  · rw [GC_accepted_eq env rw cArgs h _ rfl]
    simp only [hne, if_false]
    rfl
  · rw [hcalls]
    split <;> rfl
  · rw [GC_accepted_eq env rw cArgs h _ rfl]
    simp only [hne, if_false]
    exact hg

/-- An erase fault on the global keys after a successful call on the local
keys. -/
theorem GC_erase_failure_aborts_witness :
    (GC env2 rwVersions (cmd true [kLocal, kGlobal] (ts 50))).err =
        some (Error.StorageFault 8) ∧
      (GC env2 rwVersions (cmd true [kLocal, kGlobal] (ts 50))).res = Result.empty ∧
      (GC env2 rwVersions (cmd true [kLocal, kGlobal] (ts 50))).res.Replicated.State = none ∧
      newCalls rwVersions (GC env2 rwVersions (cmd true [kLocal, kGlobal] (ts 50))).readWriter =
        (if (MVCCGarbageCollect env2 rwVersions
              (localKeys env2 (cmd true [kLocal, kGlobal] (ts 50)))
              (cmd true [kLocal, kGlobal] (ts 50)).Header.Timestamp).2 = none
        then
          [Call.MVCCGarbageCollect (localKeys env2 (cmd true [kLocal, kGlobal] (ts 50)))
              (cmd true [kLocal, kGlobal] (ts 50)).Header.Timestamp,
            Call.MVCCGarbageCollect (globalKeys env2 (cmd true [kLocal, kGlobal] (ts 50)))
              (cmd true [kLocal, kGlobal] (ts 50)).Header.Timestamp]
        else
          [Call.MVCCGarbageCollect (localKeys env2 (cmd true [kLocal, kGlobal] (ts 50)))
            (cmd true [kLocal, kGlobal] (ts 50)).Header.Timestamp]) ∧
      thresholdWrites (newCalls rwVersions
        (GC env2 rwVersions (cmd true [kLocal, kGlobal] (ts 50))).readWriter) = [] ∧
      (GC env2 rwVersions (cmd true [kLocal, kGlobal] (ts 50))).readWriter.GCThreshold =
        rwVersions.GCThreshold :=
  GC_erase_failure_aborts env2 rwVersions (cmd true [kLocal, kGlobal] (ts 50))
    (Error.StorageFault 8) (by decide) (by decide)


/-- C15 as stated fails: on a replica whose in-memory threshold is still 30 after
threshold 50 was persisted, evaluating the same command again writes 50 again
and returns a replicated-state delta. -/
theorem GC_readvance_writes_again_when_stale :
    (GC env0 (rw0 (ts 30)) (cmd false [] (ts 50))).err = none ∧
      (GC env0 (rw0 (ts 30)) (cmd false [] (ts 50))).readWriter.GCThreshold = ts 50 ∧
      thresholdWrites (newCalls (GC env0 (rw0 (ts 30)) (cmd false [] (ts 50))).readWriter
        (GC env0 (GC env0 (rw0 (ts 30)) (cmd false [] (ts 50))).readWriter
          (cmd false [] (ts 50))).readWriter) = [ts 50] ∧
      (GC env0 (GC env0 (rw0 (ts 30)) (cmd false [] (ts 50))).readWriter
        (cmd false [] (ts 50))).res.Replicated.State =
        some { GCThreshold := some (ts 50) } := by
  decide

/-- C15, amended: re-advancing an already advanced threshold is a no-op once the
replica's in-memory threshold agrees with the persisted one.  After one
successful evaluation of a GC command on such a replica (a threshold-only
command with a non-empty threshold T in particular), evaluating the same
command again on the replica, in sync with the storage the first evaluation
left, leaves the persisted threshold unchanged, issues no threshold write and
returns no replicated-state delta; a threshold-only command succeeds again. -/
theorem GC_readvance_noop (env : Env) (rw : ReadWriter) (cArgs : CommandArgs)
    (hs : (GCInSync env rw cArgs).err = none) :
    (GCInSync env (GCInSync env rw cArgs).readWriter cArgs).readWriter.GCThreshold =
        (GCInSync env rw cArgs).readWriter.GCThreshold ∧
      thresholdWrites (newCalls (GCInSync env rw cArgs).readWriter
        (GCInSync env (GCInSync env rw cArgs).readWriter cArgs).readWriter) = [] ∧
      (GCInSync env (GCInSync env rw cArgs).readWriter cArgs).res.Replicated.State = none ∧
      (cArgs.Args.Keys = [] →
        (GCInSync env (GCInSync env rw cArgs).readWriter cArgs).err = none) := by
  have hthr := GCInSync_GCThreshold_of_success env rw cArgs hs
  generalize (GCInSync env rw cArgs).readWriter = rw1 at hthr ⊢
  have hno : ¬ ((inSync rw1 cArgs).Args.Threshold.IsEmpty = false ∧
      (inSync rw1 cArgs).EvalCtx.GetGCThreshold < (inSync rw1 cArgs).Args.Threshold) := by
    show ¬ (cArgs.Args.Threshold.IsEmpty = false ∧ rw1.GCThreshold < cArgs.Args.Threshold)
    rintro ⟨hE, hlt⟩
    rw [hthr] at hlt
    simp only [hE, Bool.false_eq_true, if_false] at hlt
    exact absurd (le_max_right rw.GCThreshold cArgs.Args.Threshold) (not_le.2 hlt)
  obtain ⟨h1, h2, h3⟩ := GC_no_threshold_write env rw1 (inSync rw1 cArgs) hno
  unfold GCInSync
  refine ⟨h1, h2, ?_, ?_⟩
  · rw [h3]
    rfl
  · intro hK
    have hK2 : (inSync rw1 cArgs).Args.Keys = [] := hK
    have h : rejectsThresholdAndKeys (inSync rw1 cArgs) = false := by
      simp [rejectsThresholdAndKeys, hK2]
    have hpk : partitionKeys env (inSync rw1 cArgs).EvalCtx (inSync rw1 cArgs).Args.Keys =
        ([], []) := by
      rw [hK2]
      rfl
    have hp : localKeys env (inSync rw1 cArgs) = [] ∧
        globalKeys env (inSync rw1 cArgs) = [] := by
      unfold localKeys globalKeys
      rw [hpk]
      exact ⟨rfl, rfl⟩
    rw [GC_accepted_eq env _ (inSync rw1 cArgs) h _ rfl, hp.1, hp.2, collectGroups_nil_nil]
    simp only [if_true, hno, if_false]

/-- Scenario B of the specification evaluated twice on a replica in sync. -/
theorem GC_readvance_noop_witness :
    (GCInSync env0 (GCInSync env0 (rw0 (ts 30)) (cmd false [] (ts 50))).readWriter
        (cmd false [] (ts 50))).readWriter.GCThreshold =
        (GCInSync env0 (rw0 (ts 30)) (cmd false [] (ts 50))).readWriter.GCThreshold ∧
      thresholdWrites (newCalls (GCInSync env0 (rw0 (ts 30)) (cmd false [] (ts 50))).readWriter
        (GCInSync env0 (GCInSync env0 (rw0 (ts 30)) (cmd false [] (ts 50))).readWriter
          (cmd false [] (ts 50))).readWriter) = [] ∧
      (GCInSync env0 (GCInSync env0 (rw0 (ts 30)) (cmd false [] (ts 50))).readWriter
        (cmd false [] (ts 50))).res.Replicated.State = none ∧
      ((cmd false [] (ts 50)).Args.Keys = [] →
        (GCInSync env0 (GCInSync env0 (rw0 (ts 30)) (cmd false [] (ts 50))).readWriter
          (cmd false [] (ts 50))).err = none) :=
  GC_readvance_noop env0 (rw0 (ts 30)) (cmd false [] (ts 50)) (by decide)

/-- C16: a GC command with an empty threshold (a pure key-erasure command)
leaves the persisted GC threshold unchanged, issues no threshold write, and
returns the empty result, hence no replicated-state delta, whether it succeeds
or not. -/
theorem GC_empty_threshold_frame (env : Env) (rw : ReadWriter) (cArgs : CommandArgs)
    (hE : cArgs.Args.Threshold.IsEmpty = true) :
    (GC env rw cArgs).readWriter.GCThreshold = rw.GCThreshold ∧
      thresholdWrites (newCalls rw (GC env rw cArgs).readWriter) = [] ∧
      (GC env rw cArgs).res = Result.empty ∧
      (GC env rw cArgs).res.Replicated.State = none := by
  have hno : ¬ (cArgs.Args.Threshold.IsEmpty = false ∧
      cArgs.EvalCtx.GetGCThreshold < cArgs.Args.Threshold) := by
    rintro ⟨h1, _⟩
    rw [hE] at h1
    cases h1
  obtain ⟨h1, h2, h3⟩ := GC_no_threshold_write env rw cArgs hno
  refine ⟨h1, h2, h3, ?_⟩
  rw [h3]
  rfl

/-- Scenario A of the specification, as an instance of C16. -/
theorem GC_empty_threshold_frame_witness :
    (GC env0 rwVersions (cmd false [kGlobal] (ts 0))).readWriter.GCThreshold =
        rwVersions.GCThreshold ∧
      thresholdWrites (newCalls rwVersions
        (GC env0 rwVersions (cmd false [kGlobal] (ts 0))).readWriter) = [] ∧
      (GC env0 rwVersions (cmd false [kGlobal] (ts 0))).res = Result.empty ∧
      (GC env0 rwVersions (cmd false [kGlobal] (ts 0))).res.Replicated.State = none :=
  GC_empty_threshold_frame env0 rwVersions (cmd false [kGlobal] (ts 0)) (by decide)

/-! ## The evaluator honours the declarator -/

/-- C17: if `GC` writes the persisted GC threshold, then the latch set that
`declareKeysGC` produces for the same command contains the non-MVCC read-write
span on the GC threshold key of the range. -/
theorem GC_threshold_write_declared (env : Env) (rk : RangeKeys) (rs : ImmutableRangeState)
    (rw : ReadWriter) (cArgs : CommandArgs) (latchSpans lockSpans : SpanSet)
    (hw : thresholdWrites (newCalls rw (GC env rw cArgs).readWriter) ≠ []) :
    ({ Access := SpanAccess.SpanReadWrite,
        Span := { Key := rk.RangeGCThresholdKey rs.RangeID, EndKey := [] },
        MVCC := none } : LatchSpan) ∈
      (declareKeysGC env rk rs cArgs.Header cArgs.Args latchSpans lockSpans).1 := by
  have hE : ¬ cArgs.Args.Threshold.IsEmpty = true := by
    intro hE
    have hno : ¬ (cArgs.Args.Threshold.IsEmpty = false ∧
        cArgs.EvalCtx.GetGCThreshold < cArgs.Args.Threshold) := by
      rintro ⟨h1, _⟩
      rw [hE] at h1
      cases h1
    exact hw (GC_no_threshold_write env rw cArgs hno).2.1
  rw [declareKeysGC_eq]
  simp [hE, thresholdLatch]

/-- Scenario B of the specification, as an instance of C17. -/
theorem GC_threshold_write_declared_witness :
    ({ Access := SpanAccess.SpanReadWrite,
        Span := { Key := rk0.RangeGCThresholdKey rs0.RangeID, EndKey := [] },
        MVCC := none } : LatchSpan) ∈
      (declareKeysGC env0 rk0 rs0 (cmd false [] (ts 50)).Header (cmd false [] (ts 50)).Args
        [] []).1 :=
  GC_threshold_write_declared env0 rk0 rs0 (rw0 (ts 30)) (cmd false [] (ts 50)) [] []
    (by decide)

/-- C18: every key `GC` passes to the erase primitive is covered by a latch
that `declareKeysGC` declares for the same command.  A key of the local slice
has a non-MVCC read-write span on exactly that key, a key of the global slice
has an MVCC read-write span on exactly that key at the batch timestamp, and
every erase call `GC` makes carries that same batch timestamp and only keys so
covered. -/
theorem GC_erased_keys_declared (env : Env) (rk : RangeKeys) (rs : ImmutableRangeState)
    (rw : ReadWriter) (cArgs : CommandArgs) (latchSpans lockSpans : SpanSet) :
    (∀ k ∈ localKeys env cArgs,
        ({ Access := SpanAccess.SpanReadWrite, Span := { Key := k.Key, EndKey := [] },
            MVCC := none } : LatchSpan) ∈
          (declareKeysGC env rk rs cArgs.Header cArgs.Args latchSpans lockSpans).1) ∧
      (∀ k ∈ globalKeys env cArgs,
        ({ Access := SpanAccess.SpanReadWrite, Span := { Key := k.Key, EndKey := [] },
            MVCC := some cArgs.Header.Timestamp } : LatchSpan) ∈
          (declareKeysGC env rk rs cArgs.Header cArgs.Args latchSpans lockSpans).1) ∧
      (∀ c ∈ eraseCalls (newCalls rw (GC env rw cArgs).readWriter),
        c.2 = cArgs.Header.Timestamp ∧
          ∀ k ∈ c.1,
            ({ Access := SpanAccess.SpanReadWrite, Span := { Key := k.Key, EndKey := [] },
                MVCC := if env.IsLocal k.Key = true then none else some c.2 } : LatchSpan) ∈
              (declareKeysGC env rk rs cArgs.Header cArgs.Args latchSpans lockSpans).1) := by
  have hkey : ∀ k ∈ cArgs.Args.Keys, keyLatch env cArgs.Header k ∈
      (declareKeysGC env rk rs cArgs.Header cArgs.Args latchSpans lockSpans).1 := by
    intro k hk
    rw [declareKeysGC_eq]
    simp only [List.mem_append, List.mem_map]
    exact Or.inr (Or.inl (Or.inl ⟨k, hk, rfl⟩))
  have hloc : ∀ k ∈ localKeys env cArgs,
      ({ Access := SpanAccess.SpanReadWrite, Span := { Key := k.Key, EndKey := [] },
          MVCC := none } : LatchSpan) ∈
        (declareKeysGC env rk rs cArgs.Header cArgs.Args latchSpans lockSpans).1 := by
    intro k hk
    rw [localKeys_eq, List.mem_filter] at hk
    have hl : env.IsLocal k.Key = true := (Bool.and_eq_true _ _ ▸ hk.2).2
    simpa [keyLatch, hl] using hkey k hk.1
  have hglob : ∀ k ∈ globalKeys env cArgs,
      ({ Access := SpanAccess.SpanReadWrite, Span := { Key := k.Key, EndKey := [] },
          MVCC := some cArgs.Header.Timestamp } : LatchSpan) ∈
        (declareKeysGC env rk rs cArgs.Header cArgs.Args latchSpans lockSpans).1 := by
    intro k hk
    rw [globalKeys_eq, List.mem_filter] at hk
    have h2 : (!env.IsLocal k.Key) = true := (Bool.and_eq_true _ _ ▸ hk.2).2
    have hl : env.IsLocal k.Key = false := by simpa using h2
    simpa [keyLatch, hl] using hkey k hk.1
  have hlocal : ∀ k ∈ localKeys env cArgs, env.IsLocal k.Key = true := by
    intro k hk
    rw [localKeys_eq, List.mem_filter] at hk
    exact (Bool.and_eq_true _ _ ▸ hk.2).2
  have hglobal : ∀ k ∈ globalKeys env cArgs, env.IsLocal k.Key = false := by
    intro k hk
    rw [globalKeys_eq, List.mem_filter] at hk
    have h2 : (!env.IsLocal k.Key) = true := (Bool.and_eq_true _ _ ▸ hk.2).2
    simpa using h2
  refine ⟨hloc, hglob, ?_⟩
  intro c hc
  have hcov : (c.1 = localKeys env cArgs ∨ c.1 = globalKeys env cArgs) ∧
      c.2 = cArgs.Header.Timestamp := by
    by_cases h : rejectsThresholdAndKeys cArgs = true
    · rw [GC_rejected env rw cArgs h] at hc
      have hn : newCalls rw rw = [] := newCalls_append rw rw [] (by simp)
      simp only [hn] at hc
      cases hc
    · have h := Bool.eq_false_iff.2 h
      rw [GC_eraseCalls env rw cArgs h] at hc
      split at hc
      · simp at hc
        rcases hc with rfl | rfl
        · exact ⟨Or.inl rfl, rfl⟩
        · exact ⟨Or.inr rfl, rfl⟩
      · simp at hc
        subst hc
        exact ⟨Or.inl rfl, rfl⟩
  refine ⟨hcov.2, ?_⟩
  intro k hk
  rcases hcov.1 with h1 | h1
  · rw [h1] at hk
    rw [hlocal k hk]
    simpa using hloc k hk
  · rw [h1] at hk
    rw [hglobal k hk, hcov.2]
    simpa using hglob k hk

end batcheval

namespace colfetcher

set_option maxRecDepth 8000

/-- The table `_fetcherState_index` read at a position inside it. -/
theorem indexAt_sample :
    [indexAt 0, indexAt 1, indexAt 2, indexAt 3, indexAt 4, indexAt 5, indexAt 6, indexAt 7,
        indexAt 8, indexAt 9, indexAt (-1)] =
      [some 0, some 12, some 26, some 41, some 64, some 97, some 113, some 131, some 144,
        none, none] := by
  decide

/-- The method on values outside the table. -/
theorem fetcherState_String_sample :
    fetcherState.String 8 = some "fetcherState(8)" ∧
      fetcherState.String 144 = some "fetcherState(144)" ∧
      fetcherState.String (-1) = some "fetcherState(-1)" := by
  decide

/-- C20: `fetcherState.String` is total and correct.  For i in 0..7 it returns
the name of the corresponding constant, without a panic; the index table is
non-decreasing and ends at the length of the name string, so every slice taken
is within bounds; and for every other value it returns "fetcherState("
followed by the decimal value and ")". -/
theorem fetcherState_String_total :
    (fetcherState.String 0 = some "stateInvalid" ∧
        fetcherState.String 1 = some "stateInitFetch" ∧
        fetcherState.String 2 = some "stateResetBatch" ∧
        fetcherState.String 3 = some "stateDecodeFirstKVOfRow" ∧
        fetcherState.String 4 = some "stateFetchNextKVWithUnfinishedRow" ∧
        fetcherState.String 5 = some "stateFinalizeRow" ∧
        fetcherState.String 6 = some "stateEmitLastBatch" ∧
        fetcherState.String 7 = some "stateFinished") ∧
      List.Sorted (fun a b => a ≤ b) _fetcherState_index ∧
      _fetcherState_index.getLast? = some _fetcherState_name.length ∧
      (∀ i : fetcherState, 0 ≤ i → i ≤ 7 →
        ∃ lo hi, indexAt i = some lo ∧ indexAt (i + 1) = some hi ∧
          lo ≤ hi ∧ hi ≤ _fetcherState_name.length ∧
          fetcherState.String i = slice _fetcherState_name lo hi) ∧
      (∀ i : fetcherState, i < 0 ∨ 7 < i →
        fetcherState.String i = some ("fetcherState(" ++ FormatInt i ++ ")")) ∧
      (∀ i : fetcherState, (fetcherState.String i).isSome = true) := by
  have hnames : fetcherState.String 0 = some "stateInvalid" ∧
      fetcherState.String 1 = some "stateInitFetch" ∧
      fetcherState.String 2 = some "stateResetBatch" ∧
      fetcherState.String 3 = some "stateDecodeFirstKVOfRow" ∧
      fetcherState.String 4 = some "stateFetchNextKVWithUnfinishedRow" ∧
      fetcherState.String 5 = some "stateFinalizeRow" ∧
      fetcherState.String 6 = some "stateEmitLastBatch" ∧
      fetcherState.String 7 = some "stateFinished" := by
    decide
  have hother : ∀ i : fetcherState, i < 0 ∨ 7 < i →
      fetcherState.String i = some ("fetcherState(" ++ FormatInt i ++ ")") := by
    intro (i : Int) (hi : i < 0 ∨ 7 < i)
    have hc : i < 0 ∨ i ≥ (_fetcherState_index.length : Int) - 1 := by
      have hlen : (_fetcherState_index.length : Int) = 9 := rfl
      rw [hlen]
      omega
    unfold fetcherState.String
    rw [if_pos hc]
  refine ⟨hnames, by decide, rfl, ?_, hother, ?_⟩
  · intro (i : Int) (h0 : 0 ≤ i) (h7 : i ≤ 7)
    have hcases : i = 0 ∨ i = 1 ∨ i = 2 ∨ i = 3 ∨ i = 4 ∨ i = 5 ∨ i = 6 ∨ i = 7 := by
      omega
    rcases hcases with rfl | rfl | rfl | rfl | rfl | rfl | rfl | rfl
    · exact ⟨0, 12, by decide⟩
    · exact ⟨12, 26, by decide⟩
    · exact ⟨26, 41, by decide⟩
    · exact ⟨41, 64, by decide⟩
    · exact ⟨64, 97, by decide⟩
    · exact ⟨97, 113, by decide⟩
    · exact ⟨113, 131, by decide⟩
    · exact ⟨131, 144, by decide⟩
  · intro (i : Int)
    by_cases hi : i < 0 ∨ 7 < i
    · rw [hother i hi]
      rfl
    · have hcases : i = 0 ∨ i = 1 ∨ i = 2 ∨ i = 3 ∨ i = 4 ∨ i = 5 ∨ i = 6 ∨ i = 7 := by
        omega
      obtain ⟨h0, h1, h2, h3, h4, h5, h6, h7⟩ := hnames
      rcases hcases with rfl | rfl | rfl | rfl | rfl | rfl | rfl | rfl
      · rw [h0]; rfl
      · rw [h1]; rfl
      · rw [h2]; rfl
      · rw [h3]; rfl
      · rw [h4]; rfl
      · rw [h5]; rfl
      · rw [h6]; rfl
      · rw [h7]; rfl

end colfetcher
